import Mathlib

/-!
Verification of the Skillboard band-classification and skill-gap engine.

This file gives a shallow embedding, in Lean, of the band-classification,
gap-analysis and course-auto-assignment logic of the Skillboard backend
(`backend/app/api/bands.py` and `backend/app/api/learning.py`), together
with theorems settling the stated properties of that logic.

Modelling conventions:
* SQLAlchemy tables become Lean structures, the database becomes a record
  of lists of rows, and ORM queries become `List.filter` / `List.find?`.
* Python floats become `ℚ` (every constant involved — the band thresholds
  and rating values 1..5 — is exactly representable, so the comparisons
  performed by the code are the rational ones).
* Python `None` becomes `Option.none`; endpoints that can raise
  `HTTPException` return `Except String`.
* The session is created with `autoflush=False`
  (`backend/app/db/database.py`), so a query issued in the middle of a
  request does **not** see rows added earlier in the same request; the
  "already assigned" checks are therefore modelled against the snapshot of
  the assignment table taken at the start of the request.
-/

namespace Skillboard

/-- The skill rating levels, `RatingEnum` of `backend/app/db/models.py`. -/
inductive RatingEnum where
  | BEGINNER
  | DEVELOPING
  | INTERMEDIATE
  | ADVANCED
  | EXPERT
deriving DecidableEq, Repr

/-- The string payload of each `RatingEnum` member (`.value` in Python). -/
def RatingEnum.value : RatingEnum → String
  | .BEGINNER => "Beginner"
  | .DEVELOPING => "Developing"
  | .INTERMEDIATE => "Intermediate"
  | .ADVANCED => "Advanced"
  | .EXPERT => "Expert"

/-- The `RATING_TO_NUMBER` dictionary of `bands.py`. -/
def RATING_TO_NUMBER : RatingEnum → Nat
  | .BEGINNER => 1
  | .DEVELOPING => 2
  | .INTERMEDIATE => 3
  | .ADVANCED => 4
  | .EXPERT => 5

/-- The helper `rating_to_level` of `learning.py`: a missing rating
(`None`) ranks as 0, otherwise the same 1..5 table as `RATING_TO_NUMBER`. -/
def rating_to_level : Option RatingEnum → Nat
  | none => 0
  | some .BEGINNER => 1
  | some .DEVELOPING => 2
  | some .INTERMEDIATE => 3
  | some .ADVANCED => 4
  | some .EXPERT => 5

/-- The `BAND_THRESHOLDS` dictionary of `bands.py`, in its (insertion)
iteration order. -/
def BAND_THRESHOLDS : List (String × ℚ × ℚ) :=
  [("A", 1, 3/2), ("B", 3/2, 5/2), ("C", 5/2, 7/2), ("L1", 7/2, 9/2), ("L2", 9/2, 5)]

/-- The `for band, (min_val, max_val) in BAND_THRESHOLDS.items()` loop of
`calculate_band`: return the first band whose half-open interval contains
the average. -/
def bandScan : List (String × ℚ × ℚ) → ℚ → Option String
  | [], _ => none
  | (band, min_val, max_val) :: rest, avg =>
    if min_val ≤ avg ∧ avg < max_val then some band else bandScan rest avg

/-- `calculate_band` of `bands.py`: ordered scan of the thresholds, then
clamp to `"A"` below 1.0 and to `"L2"` otherwise. -/
def calculate_band (average_rating : ℚ) : String :=
  match bandScan BAND_THRESHOLDS average_rating with
  | some band => band
  | none => if average_rating < 1 then "A" else "L2"

/-- The band map exactly as the specification words it: the ordered
half-open intervals `[1.0,1.5)→A, [1.5,2.5)→B, [2.5,3.5)→C, [3.5,4.5)→L1`
with `L2` closed at the top, and averages below 1.0 clamped to `A`.
(Meaningful on averages `≤ 5`, the top of the rating scale.) -/
def band_spec_intervals (q : ℚ) : String :=
  if q < 1 then "A"
  else if q < 3/2 then "A"
  else if q < 5/2 then "B"
  else if q < 7/2 then "C"
  else if q < 9/2 then "L1"
  else "L2"

theorem bandScan_nil (avg : ℚ) : bandScan [] avg = none := rfl

theorem bandScan_cons (b : String) (mn mx : ℚ) (rest : List (String × ℚ × ℚ)) (avg : ℚ) :
    bandScan ((b, mn, mx) :: rest) avg =
      if mn ≤ avg ∧ avg < mx then some b else bandScan rest avg := rfl

/-- C1: the band classifier maps every average rating value to a band by
the ordered half-open intervals `[1.0,1.5)→A, [1.5,2.5)→B, [2.5,3.5)→C,
[3.5,4.5)→L1` with `L2` closed at the top; in particular an average of
exactly 1.5 yields B, 2.5 yields C, 3.5 yields L1, 4.5 yields L2, 5.0
yields L2, and any average below 1.0 clamps to A. -/
theorem C1_calculate_band_intervals :
    (∀ q : ℚ, q ≤ 5 → calculate_band q = band_spec_intervals q) ∧
    calculate_band (3/2) = "B" ∧ calculate_band (5/2) = "C" ∧
    calculate_band (7/2) = "L1" ∧ calculate_band (9/2) = "L2" ∧
    calculate_band 5 = "L2" ∧ calculate_band (9/10) = "A" := by
  refine ⟨?_,
    by norm_num [calculate_band, BAND_THRESHOLDS, bandScan_cons, bandScan_nil],
    by norm_num [calculate_band, BAND_THRESHOLDS, bandScan_cons, bandScan_nil],
    by norm_num [calculate_band, BAND_THRESHOLDS, bandScan_cons, bandScan_nil],
    by norm_num [calculate_band, BAND_THRESHOLDS, bandScan_cons, bandScan_nil],
    by norm_num [calculate_band, BAND_THRESHOLDS, bandScan_cons, bandScan_nil],
    by norm_num [calculate_band, BAND_THRESHOLDS, bandScan_cons, bandScan_nil]⟩
  intro q hq
  rcases lt_or_le q 1 with h1 | h1
  · have hA : ¬(1 ≤ q) := not_le.mpr h1
    have hB : ¬((3:ℚ)/2 ≤ q) := not_le.mpr (by linarith)
    have hC : ¬((5:ℚ)/2 ≤ q) := not_le.mpr (by linarith)
    have hD : ¬((7:ℚ)/2 ≤ q) := not_le.mpr (by linarith)
    have hE : ¬((9:ℚ)/2 ≤ q) := not_le.mpr (by linarith)
    simp [calculate_band, BAND_THRESHOLDS, bandScan_cons, bandScan_nil,
      band_spec_intervals, hA, hB, hC, hD, hE, h1]
  · rcases lt_or_le q (3/2) with h2 | h2
    · have h1n : ¬(q < 1) := not_lt.mpr h1
      simp [calculate_band, BAND_THRESHOLDS, bandScan_cons, bandScan_nil,
        band_spec_intervals, h1, h2, h1n]
    · rcases lt_or_le q (5/2) with h3 | h3
      · have h1n : ¬(q < 1) := not_lt.mpr h1
        have h2n : ¬(q < 3/2) := not_lt.mpr h2
        simp [calculate_band, BAND_THRESHOLDS, bandScan_cons, bandScan_nil,
          band_spec_intervals, h2, h3, h1n, h2n]
      · rcases lt_or_le q (7/2) with h4 | h4
        · have h1n : ¬(q < 1) := not_lt.mpr h1
          have h2n : ¬(q < 3/2) := not_lt.mpr h2
          have h3n : ¬(q < 5/2) := not_lt.mpr h3
          simp [calculate_band, BAND_THRESHOLDS, bandScan_cons, bandScan_nil,
            band_spec_intervals, h3, h4, h1n, h2n, h3n]
        · rcases lt_or_le q (9/2) with h5 | h5
          · have h1n : ¬(q < 1) := not_lt.mpr h1
            have h2n : ¬(q < 3/2) := not_lt.mpr h2
            have h3n : ¬(q < 5/2) := not_lt.mpr h3
            have h4n : ¬(q < 7/2) := not_lt.mpr h4
            simp [calculate_band, BAND_THRESHOLDS, bandScan_cons, bandScan_nil,
              band_spec_intervals, h4, h5, h1n, h2n, h3n, h4n]
          · rcases lt_or_le q 5 with h6 | h6
            · have h1n : ¬(q < 1) := not_lt.mpr h1
              have h2n : ¬(q < 3/2) := not_lt.mpr h2
              have h3n : ¬(q < 5/2) := not_lt.mpr h3
              have h4n : ¬(q < 7/2) := not_lt.mpr h4
              have h5n : ¬(q < 9/2) := not_lt.mpr h5
              simp [calculate_band, BAND_THRESHOLDS, bandScan_cons, bandScan_nil,
                band_spec_intervals, h5, h6, h1n, h2n, h3n, h4n, h5n]
            · have h6e : q = 5 := le_antisymm hq h6
              subst h6e
              norm_num [calculate_band, BAND_THRESHOLDS, bandScan_cons, bandScan_nil,
                band_spec_intervals]

/-- Witness for C1 at the concrete average 2: both sides evaluate to "B". -/
theorem C1_witness : calculate_band 2 = band_spec_intervals 2 :=
  C1_calculate_band_intervals.1 2 (by norm_num)

/-- A row of the `skills` table (the columns the core logic reads). -/
structure SkillRow where
  id : Nat
  name : String
  category : Option String
deriving DecidableEq, Repr

/-- A row of the `employee_skills` table. -/
structure EmployeeSkillRow where
  employee_id : Nat
  skill_id : Nat
  rating : Option RatingEnum
  is_interested : Bool
deriving DecidableEq, Repr

/-- A row of the `employees` table. -/
structure EmployeeRow where
  id : Nat
  employee_id : String
  name : String
  band : Option String
deriving DecidableEq, Repr

/-- A row of the `role_requirements` table. -/
structure RoleRequirementRow where
  band : String
  skill_id : Nat
  required_rating : RatingEnum
  is_required : Bool
deriving DecidableEq, Repr

/-- A row of the `courses` table (`skill_id` is nullable; untagged courses
never match the `Course.skill_id == <skill>` queries). -/
structure CourseRow where
  id : Nat
  skill_id : Option Nat
deriving DecidableEq, Repr

/-- The `CourseStatusEnum` used by `learning.py`. -/
inductive CourseStatus where
  | NOT_STARTED
  | IN_PROGRESS
  | COMPLETED
deriving DecidableEq, Repr

/-- A row of the `course_assignments` table.  `id` is the
database-generated primary key; rows created by auto-assignment are
modelled with `id = 0`, a value the auto-assignment logic never reads
(its existence check keys on `(employee_id, course_id)`).  `started_at`
is an abstract timestamp. -/
structure AssignmentRow where
  id : Nat
  employee_id : Nat
  course_id : Nat
  status : CourseStatus
  started_at : Option Nat
deriving DecidableEq, Repr

/-- The relational store: one list of rows per table. -/
structure DB where
  employees : List EmployeeRow
  skills : List SkillRow
  employee_skills : List EmployeeSkillRow
  role_requirements : List RoleRequirementRow
  courses : List CourseRow
  assignments : List AssignmentRow
deriving DecidableEq, Repr

/-- The qualifying-skill query shared by `calculate_employee_band` and
`get_employee_band_analysis`: the employee's rows with
`is_interested == False` and a non-null rating. -/
def qualifyingSkills (db : DB) (employee_id : Nat) : List EmployeeSkillRow :=
  db.employee_skills.filter (fun es =>
    es.employee_id == employee_id && es.is_interested == false && es.rating.isSome)

/-- The average-rating accumulation loop shared by both band computations:
`total_rating` is summed, and `count` incremented, for each row whose
rating is truthy (every `RatingEnum` value is a non-empty string, so
truthiness is `isSome`). -/
def totalRating (l : List EmployeeSkillRow) : Nat :=
  (l.map (fun es => match es.rating with | some r => RATING_TO_NUMBER r | none => 0)).sum

/-- The `count` accumulated alongside `totalRating`. -/
def ratedCount (l : List EmployeeSkillRow) : Nat :=
  (l.filter (fun es => es.rating.isSome)).length

/-- `calculate_employee_band` of `bands.py`: average the qualifying
ratings and classify; an empty set (or a zero count) yields `"A"`. -/
def calculate_employee_band (db : DB) (employee_id : Nat) : String :=
  let employee_skills := qualifyingSkills db employee_id
  if employee_skills.isEmpty then "A"
  else if ratedCount employee_skills == 0 then "A"
  else calculate_band ((totalRating employee_skills : ℚ) / (ratedCount employee_skills : ℚ))

/-- One per-skill gap record of `get_employee_band_analysis`. -/
structure SkillGap where
  skill_id : Nat
  skill_name : String
  skill_category : Option String
  current_rating_text : Option String
  current_rating_number : Option Nat
  required_rating_text : String
  required_rating_number : Nat
  gap : Int
  is_required : Bool
deriving DecidableEq, Repr

/-- The `BandAnalysis` response model of `bands.py`. -/
structure BandAnalysis where
  employee_id : String
  employee_name : String
  band : String
  average_rating : ℚ
  total_skills : Nat
  skills_above_requirement : Nat
  skills_at_requirement : Nat
  skills_below_requirement : Nat
  skill_gaps : List SkillGap
deriving DecidableEq, Repr

/-- Models Python's `round(average_rating, 2)`.  Lean's `round` rounds
halves up whereas Python rounds float halves to even; the two agree except
on exact half-hundredths, which none of the verified properties involve. -/
def round2 (q : ℚ) : ℚ := ((round (q * 100) : ℤ) : ℚ) / 100

/-- The `EmployeeSkill ⋈ Skill` query of `get_employee_band_analysis`:
qualifying rows joined to their skill row (`Skill.id` is the primary key,
so `find?` returns the unique matching row). -/
def joinedQualifyingSkills (db : DB) (employee_db_id : Nat) :
    List (EmployeeSkillRow × SkillRow) :=
  (qualifyingSkills db employee_db_id).filterMap
    (fun es => (db.skills.find? (fun s => s.id == es.skill_id)).map (fun s => (es, s)))

/-- The `requirement_map` of `get_employee_band_analysis`: requirements of
the band that survive the join with `Skill`, keyed by skill id.  The
Python dict comprehension keeps the last entry per key, hence the reversed
scan (the `(band, skill_id)` unique constraint makes at most one entry
exist anyway). -/
def requirementMapLookup (db : DB) (band : String) (skill_id : Nat) :
    Option RoleRequirementRow :=
  (((db.role_requirements.filter (fun r => r.band == band)).filter
      (fun r => (db.skills.find? (fun s => s.id == r.skill_id)).isSome)).reverse).find?
    (fun r => r.skill_id == skill_id)

/-- One iteration of the skill-gap loop of `get_employee_band_analysis`:
resolve the requirement (explicit row if present, otherwise the
unconditional Intermediate/3 default with `is_required = True`) and record
the signed gap `current - required` (a missing current number counts 0,
via Python's `current_rating_num or 0`). -/
def gapRecordOf (db : DB) (band : String) (row : EmployeeSkillRow × SkillRow) : SkillGap :=
  let current_rating_number := row.1.rating.map RATING_TO_NUMBER
  let current_rating_text := row.1.rating.map RatingEnum.value
  match requirementMapLookup db band row.2.id with
  | some requirement =>
    { skill_id := row.2.id
      skill_name := row.2.name
      skill_category := row.2.category
      current_rating_text := current_rating_text
      current_rating_number := current_rating_number
      required_rating_text := requirement.required_rating.value
      required_rating_number := RATING_TO_NUMBER requirement.required_rating
      gap := ((current_rating_number.getD 0 : Nat) : ℤ) -
        ((RATING_TO_NUMBER requirement.required_rating : Nat) : ℤ)
      is_required := requirement.is_required }
  | none =>
    { skill_id := row.2.id
      skill_name := row.2.name
      skill_category := row.2.category
      current_rating_text := current_rating_text
      current_rating_number := current_rating_number
      required_rating_text := "Intermediate"
      required_rating_number := 3
      gap := ((current_rating_number.getD 0 : Nat) : ℤ) - 3
      is_required := true }

/-- The average computed in the non-empty branch of
`get_employee_band_analysis` (`1.0` if the count is zero). -/
def analysisAverage (db : DB) (employee_db_id : Nat) : ℚ :=
  let rows := (joinedQualifyingSkills db employee_db_id).map (fun row => row.1)
  if 0 < ratedCount rows then (totalRating rows : ℚ) / (ratedCount rows : ℚ) else 1

/-- The gap list built by `get_employee_band_analysis`. -/
def analysisGaps (db : DB) (employee_db_id : Nat) : List SkillGap :=
  (joinedQualifyingSkills db employee_db_id).map
    (gapRecordOf db (calculate_band (analysisAverage db employee_db_id)))

/-- `get_employee_band_analysis` of `bands.py`.  The source accumulates
the three counters in the gap loop with `if gap > 0 / elif gap == 0 /
else`; by trichotomy on `ℤ` the `else` branch is exactly `gap < 0`, so the
counters are the lengths of the corresponding filters of the gap list. -/
def get_employee_band_analysis (db : DB) (employee_db_id : Nat)
    (employee_id : String) (employee_name : String) : BandAnalysis :=
  if (joinedQualifyingSkills db employee_db_id).isEmpty then
    { employee_id := employee_id
      employee_name := employee_name
      band := "A"
      average_rating := 1
      total_skills := 0
      skills_above_requirement := 0
      skills_at_requirement := 0
      skills_below_requirement := 0
      skill_gaps := [] }
  else
    { employee_id := employee_id
      employee_name := employee_name
      band := calculate_band (analysisAverage db employee_db_id)
      average_rating := round2 (analysisAverage db employee_db_id)
      total_skills := (joinedQualifyingSkills db employee_db_id).length
      skills_above_requirement :=
        ((analysisGaps db employee_db_id).filter (fun g => decide (0 < g.gap))).length
      skills_at_requirement :=
        ((analysisGaps db employee_db_id).filter (fun g => decide (g.gap = 0))).length
      skills_below_requirement :=
        ((analysisGaps db employee_db_id).filter (fun g => decide (g.gap < 0))).length
      skill_gaps := analysisGaps db employee_db_id }

/-- One iteration of the update loop of `calculate_all_employee_bands`. -/
def calcAllStep (db : DB) (acc : List EmployeeRow × Nat) (employee : EmployeeRow) :
    List EmployeeRow × Nat :=
  let band := calculate_employee_band db employee.id
  if employee.band ≠ some band then
    (acc.1 ++ [{ employee with band := some band }], acc.2 + 1)
  else (acc.1 ++ [employee], acc.2)

/-- `calculate_all_employee_bands` of `bands.py`: recompute every
employee's band, write it back only when it differs from the stored value,
and report the number of updated records together with the total count. -/
def calculate_all_employee_bands (db : DB) : DB × Nat × Nat :=
  let res := db.employees.foldl (calcAllStep db) ([], 0)
  ({ db with employees := res.1 }, db.employees.length, res.2)

theorem mem_joined_rating_isSome (db : DB) (i : Nat) (row : EmployeeSkillRow × SkillRow)
    (h : row ∈ joinedQualifyingSkills db i) : row.1.rating.isSome := by
  rcases List.mem_filterMap.mp h with ⟨es, hes, hmap⟩
  rcases Option.map_eq_some'.mp hmap with ⟨s, _, hrow⟩
  have hcond := (List.mem_filter.mp hes).2
  simp only [Bool.and_eq_true, beq_iff_eq] at hcond
  rw [← hrow]
  exact hcond.2

theorem gapRecordOf_current (db : DB) (band : String) (row : EmployeeSkillRow × SkillRow) :
    (gapRecordOf db band row).current_rating_number = row.1.rating.map RATING_TO_NUMBER := by
  unfold gapRecordOf
  cases requirementMapLookup db band row.2.id <;> rfl

theorem gapRecordOf_gap (db : DB) (band : String) (row : EmployeeSkillRow × SkillRow) :
    (gapRecordOf db band row).gap =
      (((row.1.rating.map RATING_TO_NUMBER).getD 0 : Nat) : ℤ) -
        ((gapRecordOf db band row).required_rating_number : ℤ) := by
  unfold gapRecordOf
  cases requirementMapLookup db band row.2.id <;> simp

theorem length_filter_gap_tri (l : List SkillGap) :
    (l.filter (fun g => decide (0 < g.gap))).length +
      (l.filter (fun g => decide (g.gap = 0))).length +
      (l.filter (fun g => decide (g.gap < 0))).length = l.length := by
  induction l with
  | nil => rfl
  | cons x xs ih =>
    by_cases h1 : 0 < x.gap
    · have h2 : ¬(x.gap = 0) := by omega
      have h3 : ¬(x.gap < 0) := by omega
      simp [List.filter_cons, h1, h2, h3]
      omega
    · by_cases h2 : x.gap = 0
      · have h3 : ¬(x.gap < 0) := by omega
        simp [List.filter_cons, h1, h2, h3]
        omega
      · have h3 : x.gap < 0 := by omega
        simp [List.filter_cons, h1, h2, h3]
        omega

/-- C2: in the band analysis, every evaluated skill's gap equals
current_level minus required_level (a signed integer), the three counters
count exactly the gaps that are positive, zero and negative, and the three
counts sum to the total number of skills evaluated. -/
theorem C2_gap_counts (db : DB) (employee_db_id : Nat) (eid name : String)
    (a : BandAnalysis) (ha : a = get_employee_band_analysis db employee_db_id eid name) :
    (∀ g ∈ a.skill_gaps, ∃ n : Nat, g.current_rating_number = some n ∧
        g.gap = (n : ℤ) - (g.required_rating_number : ℤ)) ∧
    a.skills_above_requirement = (a.skill_gaps.filter (fun g => decide (0 < g.gap))).length ∧
    a.skills_at_requirement = (a.skill_gaps.filter (fun g => decide (g.gap = 0))).length ∧
    a.skills_below_requirement = (a.skill_gaps.filter (fun g => decide (g.gap < 0))).length ∧
    a.skills_above_requirement + a.skills_at_requirement + a.skills_below_requirement
      = a.total_skills ∧
    a.total_skills = a.skill_gaps.length := by
  subst ha
  unfold get_employee_band_analysis
  split
  · simp
  · refine ⟨?_, rfl, rfl, rfl, ?_, ?_⟩
    · intro g hg
      simp only at hg
      rcases List.mem_map.mp hg with ⟨row, hrow, hgr⟩
      have hsome := mem_joined_rating_isSome db employee_db_id row hrow
      rcases Option.isSome_iff_exists.mp hsome with ⟨r, hr⟩
      refine ⟨RATING_TO_NUMBER r, ?_, ?_⟩
      · rw [← hgr, gapRecordOf_current, hr]
        rfl
      · rw [← hgr, gapRecordOf_gap, hr]
        rfl
    · simp only
      rw [length_filter_gap_tri, analysisGaps, List.length_map]
    · simp only
      rw [analysisGaps, List.length_map]

/-- Witness for C2 on a concrete one-skill database: the three counters
sum to the single evaluated skill. -/
theorem C2_witness :
    (get_employee_band_analysis
        ⟨[], [⟨1, "SQL", none⟩], [⟨1, 1, some .ADVANCED, false⟩], [], [], []⟩
        1 "E1" "Alice").skills_above_requirement +
      (get_employee_band_analysis
        ⟨[], [⟨1, "SQL", none⟩], [⟨1, 1, some .ADVANCED, false⟩], [], [], []⟩
        1 "E1" "Alice").skills_at_requirement +
      (get_employee_band_analysis
        ⟨[], [⟨1, "SQL", none⟩], [⟨1, 1, some .ADVANCED, false⟩], [], [], []⟩
        1 "E1" "Alice").skills_below_requirement =
      (get_employee_band_analysis
        ⟨[], [⟨1, "SQL", none⟩], [⟨1, 1, some .ADVANCED, false⟩], [], [], []⟩
        1 "E1" "Alice").total_skills :=
  (C2_gap_counts _ 1 "E1" "Alice" _ rfl).2.2.2.2.1

/-- C6: an employee with zero qualifying skill ratings (no non-interested
row with a non-null rating) gets the default analysis — band `A`, average
`1.0`, zero total and zero counts, empty gap list — and no error (the
analysis is a total function). -/
theorem C6_no_qualifying_skills_default (db : DB) (employee_db_id : Nat) (eid name : String)
    (h : ∀ es ∈ db.employee_skills, es.employee_id = employee_db_id →
      es.is_interested = true ∨ es.rating = none) :
    get_employee_band_analysis db employee_db_id eid name =
      { employee_id := eid
        employee_name := name
        band := "A"
        average_rating := 1
        total_skills := 0
        skills_above_requirement := 0
        skills_at_requirement := 0
        skills_below_requirement := 0
        skill_gaps := [] } := by
  have hq : qualifyingSkills db employee_db_id = [] := by
    rw [qualifyingSkills, List.filter_eq_nil_iff]
    intro es hes
    by_cases hemp : es.employee_id = employee_db_id
    · rcases h es hes hemp with hint | hrat
      · simp [hint]
      · simp [hrat]
    · simp [hemp]
  have hj : joinedQualifyingSkills db employee_db_id = [] := by
    rw [joinedQualifyingSkills, hq]
    rfl
  rw [get_employee_band_analysis, hj]
  rfl

/-- Witness for C6 on a concrete database whose only row for the employee
is an interested one. -/
theorem C6_witness :
    get_employee_band_analysis ⟨[], [], [⟨1, 1, none, true⟩], [], [], []⟩ 1 "E1" "Bob" =
      { employee_id := "E1"
        employee_name := "Bob"
        band := "A"
        average_rating := 1
        total_skills := 0
        skills_above_requirement := 0
        skills_at_requirement := 0
        skills_below_requirement := 0
        skill_gaps := [] } :=
  C6_no_qualifying_skills_default _ 1 "E1" "Bob" (by
    intro es hes hemp
    simp only [List.mem_singleton] at hes
    subst hes
    exact Or.inl rfl)

theorem calcAllStep_foldl (db : DB) (l : List EmployeeRow) :
    ∀ (acc : List EmployeeRow) (n : Nat),
      l.foldl (calcAllStep db) (acc, n) =
        (acc ++ l.map (fun e =>
            if e.band = some (calculate_employee_band db e.id) then e
            else { e with band := some (calculate_employee_band db e.id) }),
          n + (l.filter
            (fun e => decide (e.band ≠ some (calculate_employee_band db e.id)))).length) := by
  induction l with
  | nil => intro acc n; simp
  | cons e es ih =>
    intro acc n
    simp only [List.foldl_cons, List.map_cons, List.filter_cons]
    by_cases h : e.band = some (calculate_employee_band db e.id)
    · rw [show calcAllStep db (acc, n) e = (acc ++ [e], n) by
        unfold calcAllStep
        rw [if_neg (not_not_intro h)]]
      rw [ih]
      simp [h]
    · rw [show calcAllStep db (acc, n) e = (acc ++ [{ e with
          band := some (calculate_employee_band db e.id) }], n + 1) by
        unfold calcAllStep
        rw [if_pos h]]
      rw [ih]
      simp [h, List.append_assoc]
      omega

/-- C9: the recalculate-all-bands operation recomputes the band of every
employee, rewrites an employee record exactly when the recomputed band
differs from the stored one (otherwise the record is untouched), and
reports the total employee count together with the number of changed
records. -/
theorem C9_recalculate_all_bands (db : DB) :
    calculate_all_employee_bands db =
      ({ db with employees := db.employees.map (fun e =>
            if e.band = some (calculate_employee_band db e.id) then e
            else { e with band := some (calculate_employee_band db e.id) }) },
        db.employees.length,
        (db.employees.filter
          (fun e => decide (e.band ≠ some (calculate_employee_band db e.id)))).length) := by
  unfold calculate_all_employee_bands
  rw [calcAllStep_foldl db db.employees [] 0]
  simp

/-- The `BAND_DEFAULT_RATINGS` dictionary of `learning.py`: the default
required rating per band when no explicit requirement row exists. -/
def BAND_DEFAULT_RATINGS : List (String × RatingEnum) :=
  [("A", .BEGINNER), ("B", .DEVELOPING), ("C", .INTERMEDIATE),
   ("L1", .ADVANCED), ("L2", .EXPERT)]

/-- Running state of one auto-assignment request: the rows `db.add`-ed so
far (pending in the session) and the two counters. -/
structure AutoState where
  new_assignments : List AssignmentRow
  assigned : Nat
  skipped : Nat
deriving DecidableEq, Repr

/-- The assignment row auto-assignment creates for `(employee, course)`. -/
def mkAssignment (employee_db_id course_id : Nat) : AssignmentRow :=
  ⟨0, employee_db_id, course_id, .NOT_STARTED, none⟩

/-- The per-course body shared by both auto-assignment loops.  `snapshot`
is the assignment table as the request's queries see it: the session has
`autoflush=False`, so rows added by `db.add` earlier in the same request
are not visible to the existence check. -/
def processCourse (snapshot : List AssignmentRow) (employee_db_id : Nat)
    (st : AutoState) (course : CourseRow) : AutoState :=
  if (snapshot.find? (fun a =>
      a.employee_id == employee_db_id && a.course_id == course.id)).isSome then
    { st with skipped := st.skipped + 1 }
  else
    { st with
      new_assignments := st.new_assignments ++ [mkAssignment employee_db_id course.id]
      assigned := st.assigned + 1 }

/-- The `for requirement in role_requirements` loop body of the
auto-assignment endpoints: look up the employee's row for the skill (note:
this query carries no `is_interested` filter), and when the current level
is strictly below the required one, process every course tagged with the
skill. -/
def requirementStep (db : DB) (employee_db_id : Nat) (st : AutoState)
    (requirement : RoleRequirementRow) : AutoState :=
  let employee_skill := db.employee_skills.find? (fun es =>
    es.employee_id == employee_db_id && es.skill_id == requirement.skill_id)
  let current_level := rating_to_level (match employee_skill with
    | some es => es.rating
    | none => none)
  let required_level := rating_to_level (some requirement.required_rating)
  if current_level < required_level then
    (db.courses.filter (fun c => c.skill_id == some requirement.skill_id)).foldl
      (processCourse db.assignments employee_db_id) st
  else st

/-- The `for emp_skill in employee_skills` loop body of the auto-assignment
endpoints: skills with an explicit requirement are skipped (`continue`);
the rest are checked against the band's default required rating. -/
def defaultStep (db : DB) (employee_db_id : Nat) (explicit_skill_ids : List Nat)
    (default_required_rating : RatingEnum) (st : AutoState)
    (emp_skill : EmployeeSkillRow) : AutoState :=
  if emp_skill.skill_id ∈ explicit_skill_ids then st
  else if rating_to_level emp_skill.rating <
      rating_to_level (some default_required_rating) then
    (db.courses.filter (fun c => c.skill_id == some emp_skill.skill_id)).foldl
      (processCourse db.assignments employee_db_id) st
  else st

/-- The auto-assignment body, duplicated verbatim in the source between
the bulk endpoint and the per-employee endpoint: the explicit-requirement
loop followed by the default-requirement loop. -/
def autoAssignLoops (db : DB) (employee_db_id : Nat) (band : String)
    (st : AutoState) : AutoState :=
  let role_requirements := db.role_requirements.filter (fun r => r.band == band)
  let explicit_skill_ids := role_requirements.map (fun r => r.skill_id)
  let employee_skills := db.employee_skills.filter (fun es =>
    es.employee_id == employee_db_id && es.is_interested == false)
  let default_required_rating :=
    (List.lookup band BAND_DEFAULT_RATINGS).getD RatingEnum.INTERMEDIATE
  let st1 := role_requirements.foldl (requirementStep db employee_db_id) st
  employee_skills.foldl
    (defaultStep db employee_db_id explicit_skill_ids default_required_rating) st1

/-- `auto_assign_courses_for_employee` of `learning.py` (admin endpoint):
404 when the employee does not exist, 400 when the employee's band is
falsy (Python `if not employee.band`), otherwise run the two loops and
commit the pending rows. -/
def auto_assign_courses_for_employee (db : DB) (employee_id : Nat) :
    Except String (DB × Nat × Nat) :=
  match db.employees.find? (fun e => e.id == employee_id) with
  | none => .error "Employee not found"
  | some employee =>
    match employee.band with
    | none => .error "Employee has no band assigned"
    | some band =>
      if band.isEmpty then .error "Employee has no band assigned"
      else
        let st := autoAssignLoops db employee.id band ⟨[], 0, 0⟩
        .ok ({ db with assignments := db.assignments ++ st.new_assignments },
          st.assigned, st.skipped)

/-- `auto_assign_courses_by_skill_gap` of `learning.py` (bulk endpoint):
employees with a falsy band are skipped (`continue`); the counters and the
pending rows accumulate across employees and are committed at the end. -/
def auto_assign_courses_by_skill_gap (db : DB) : DB × Nat × Nat :=
  let final := db.employees.foldl
    (fun st employee =>
      match employee.band with
      | none => st
      | some band => if band.isEmpty then st else autoAssignLoops db employee.id band st)
    ⟨[], 0, 0⟩
  ({ db with assignments := db.assignments ++ final.new_assignments },
    final.assigned, final.skipped)

/-- The courses tagged with a skill (`Course.skill_id == <skill>`). -/
def coursesFor (db : DB) (skill_id : Nat) : List CourseRow :=
  db.courses.filter (fun c => c.skill_id == some skill_id)

/-- The rows one course-group fold adds: one per course of the group whose
`(employee, course)` pair is absent from the snapshot. -/
def newOfCourses (snapshot : List AssignmentRow) (employee_db_id : Nat)
    (cs : List CourseRow) : List AssignmentRow :=
  (cs.filter (fun c => !(snapshot.find? (fun a =>
      a.employee_id == employee_db_id && a.course_id == c.id)).isSome)).map
    (fun c => mkAssignment employee_db_id c.id)

/-- The number of courses one course-group fold skips: those of the group
whose `(employee, course)` pair is already in the snapshot. -/
def skippedOfCourses (snapshot : List AssignmentRow) (employee_db_id : Nat)
    (cs : List CourseRow) : Nat :=
  (cs.filter (fun c => (snapshot.find? (fun a =>
      a.employee_id == employee_db_id && a.course_id == c.id)).isSome)).length

theorem processCourse_foldl (snapshot : List AssignmentRow) (e : Nat) (cs : List CourseRow) :
    ∀ st : AutoState, cs.foldl (processCourse snapshot e) st =
      ⟨st.new_assignments ++ newOfCourses snapshot e cs,
        st.assigned + (newOfCourses snapshot e cs).length,
        st.skipped + skippedOfCourses snapshot e cs⟩ := by
  induction cs with
  | nil => intro st; simp [newOfCourses, skippedOfCourses]
  | cons c cs ih =>
    intro st
    simp only [List.foldl_cons]
    rw [ih]
    by_cases h : (snapshot.find? (fun a => a.employee_id == e && a.course_id == c.id)).isSome
    · rw [show processCourse snapshot e st c = { st with skipped := st.skipped + 1 } from by
        rw [processCourse, if_pos h]]
      have hnew : newOfCourses snapshot e (c :: cs) = newOfCourses snapshot e cs := by
        rw [newOfCourses, newOfCourses, List.filter_cons]
        rw [show (!(snapshot.find? (fun a =>
            a.employee_id == e && a.course_id == c.id)).isSome) = false from by rw [h]; rfl]
        rfl
      have hskip : skippedOfCourses snapshot e (c :: cs) =
          skippedOfCourses snapshot e cs + 1 := by
        rw [skippedOfCourses, skippedOfCourses, List.filter_cons, if_pos h]
        rfl
      rw [hnew, hskip]
      simp only [AutoState.mk.injEq]
      refine ⟨trivial, trivial, by omega⟩
    · have hb : (snapshot.find? (fun a =>
          a.employee_id == e && a.course_id == c.id)).isSome = false :=
        Bool.not_eq_true _ ▸ (by simpa using h)
      rw [show processCourse snapshot e st c = { st with
          new_assignments := st.new_assignments ++ [mkAssignment e c.id],
          assigned := st.assigned + 1 } from by
        rw [processCourse, if_neg (by rw [hb]; exact Bool.false_ne_true)]]
      have hnew : newOfCourses snapshot e (c :: cs) =
          mkAssignment e c.id :: newOfCourses snapshot e cs := by
        rw [newOfCourses, newOfCourses, List.filter_cons]
        rw [show (!(snapshot.find? (fun a =>
            a.employee_id == e && a.course_id == c.id)).isSome) = true from by rw [hb]; rfl]
        rfl
      have hskip : skippedOfCourses snapshot e (c :: cs) = skippedOfCourses snapshot e cs := by
        rw [skippedOfCourses, skippedOfCourses, List.filter_cons, if_neg]
        rw [hb]
        exact Bool.false_ne_true
      rw [hnew, hskip]
      simp only [AutoState.mk.injEq]
      refine ⟨by rw [List.append_assoc]; rfl, by rw [List.length_cons]; omega, trivial⟩

theorem foldl_groups {α : Type} (step : AutoState → α → AutoState)
    (fnew : α → List AssignmentRow) (fskip : α → Nat)
    (hstep : ∀ st x, step st x = ⟨st.new_assignments ++ fnew x,
      st.assigned + (fnew x).length, st.skipped + fskip x⟩) :
    ∀ (l : List α) (st : AutoState),
      l.foldl step st = ⟨st.new_assignments ++ l.flatMap fnew,
        st.assigned + (l.flatMap fnew).length, st.skipped + (l.map fskip).sum⟩ := by
  intro l
  induction l with
  | nil => intro st; simp
  | cons x xs ih =>
    intro st
    simp only [List.foldl_cons]
    rw [hstep, ih]
    simp [List.append_assoc]
    omega

/-- What one explicit-requirement iteration adds: the unassigned courses
of the skill, when the employee is strictly below the required level. -/
def reqNew (db : DB) (e : Nat) (requirement : RoleRequirementRow) : List AssignmentRow :=
  if rating_to_level (match db.employee_skills.find? (fun es =>
      es.employee_id == e && es.skill_id == requirement.skill_id) with
      | some es => es.rating
      | none => none) < rating_to_level (some requirement.required_rating) then
    newOfCourses db.assignments e (coursesFor db requirement.skill_id)
  else []

/-- What one explicit-requirement iteration skips. -/
def reqSkip (db : DB) (e : Nat) (requirement : RoleRequirementRow) : Nat :=
  if rating_to_level (match db.employee_skills.find? (fun es =>
      es.employee_id == e && es.skill_id == requirement.skill_id) with
      | some es => es.rating
      | none => none) < rating_to_level (some requirement.required_rating) then
    skippedOfCourses db.assignments e (coursesFor db requirement.skill_id)
  else 0

/-- What one default-requirement iteration adds. -/
def defNew (db : DB) (e : Nat) (explicit_skill_ids : List Nat)
    (default_required_rating : RatingEnum) (emp_skill : EmployeeSkillRow) :
    List AssignmentRow :=
  if emp_skill.skill_id ∈ explicit_skill_ids then []
  else if rating_to_level emp_skill.rating <
      rating_to_level (some default_required_rating) then
    newOfCourses db.assignments e (coursesFor db emp_skill.skill_id)
  else []

/-- What one default-requirement iteration skips. -/
def defSkip (db : DB) (e : Nat) (explicit_skill_ids : List Nat)
    (default_required_rating : RatingEnum) (emp_skill : EmployeeSkillRow) : Nat :=
  if emp_skill.skill_id ∈ explicit_skill_ids then 0
  else if rating_to_level emp_skill.rating <
      rating_to_level (some default_required_rating) then
    skippedOfCourses db.assignments e (coursesFor db emp_skill.skill_id)
  else 0

theorem requirementStep_eq (db : DB) (e : Nat) (st : AutoState)
    (requirement : RoleRequirementRow) :
    requirementStep db e st requirement =
      ⟨st.new_assignments ++ reqNew db e requirement,
        st.assigned + (reqNew db e requirement).length,
        st.skipped + reqSkip db e requirement⟩ := by
  simp only [requirementStep, reqNew, reqSkip, coursesFor]
  split_ifs with h
  · exact processCourse_foldl _ _ _ st
  · simp

theorem defaultStep_eq (db : DB) (e : Nat) (ids : List Nat) (d : RatingEnum)
    (st : AutoState) (emp_skill : EmployeeSkillRow) :
    defaultStep db e ids d st emp_skill =
      ⟨st.new_assignments ++ defNew db e ids d emp_skill,
        st.assigned + (defNew db e ids d emp_skill).length,
        st.skipped + defSkip db e ids d emp_skill⟩ := by
  simp only [defaultStep, defNew, defSkip, coursesFor]
  split_ifs with h1 h2
  · simp
  · exact processCourse_foldl _ _ _ st
  · simp

/-- All rows auto-assignment adds for one employee with a given band. -/
def autoAssignNew (db : DB) (e : Nat) (band : String) : List AssignmentRow :=
  (db.role_requirements.filter (fun r => r.band == band)).flatMap (reqNew db e) ++
  (db.employee_skills.filter (fun es =>
      es.employee_id == e && es.is_interested == false)).flatMap
    (defNew db e
      ((db.role_requirements.filter (fun r => r.band == band)).map (fun r => r.skill_id))
      ((List.lookup band BAND_DEFAULT_RATINGS).getD RatingEnum.INTERMEDIATE))

/-- The skipped count of one employee's auto-assignment run. -/
def autoAssignSkipped (db : DB) (e : Nat) (band : String) : Nat :=
  (((db.role_requirements.filter (fun r => r.band == band)).map (reqSkip db e)).sum) +
  (((db.employee_skills.filter (fun es =>
      es.employee_id == e && es.is_interested == false)).map
    (defSkip db e
      ((db.role_requirements.filter (fun r => r.band == band)).map (fun r => r.skill_id))
      ((List.lookup band BAND_DEFAULT_RATINGS).getD RatingEnum.INTERMEDIATE))).sum)

theorem autoAssignLoops_eq (db : DB) (e : Nat) (band : String) (st : AutoState) :
    autoAssignLoops db e band st =
      ⟨st.new_assignments ++ autoAssignNew db e band,
        st.assigned + (autoAssignNew db e band).length,
        st.skipped + autoAssignSkipped db e band⟩ := by
  simp only [autoAssignLoops, autoAssignNew, autoAssignSkipped]
  rw [foldl_groups (requirementStep db e) (reqNew db e) (reqSkip db e)
    (fun st r => requirementStep_eq db e st r)]
  rw [foldl_groups _ _ _
    (fun st es => defaultStep_eq db e
      ((db.role_requirements.filter (fun r => r.band == band)).map (fun r => r.skill_id))
      ((List.lookup band BAND_DEFAULT_RATINGS).getD RatingEnum.INTERMEDIATE) st es)]
  simp only [AutoState.mk.injEq]
  refine ⟨by rw [List.append_assoc], ?_, by omega⟩
  rw [List.length_append]
  omega

theorem auto_assign_for_employee_eq (db : DB) (eid : Nat) (emp : EmployeeRow) (band : String)
    (hfind : db.employees.find? (fun e => e.id == eid) = some emp)
    (hband : emp.band = some band) (hbe : band.isEmpty = false) :
    auto_assign_courses_for_employee db eid = .ok
      ({ db with assignments := db.assignments ++ autoAssignNew db emp.id band },
        (autoAssignNew db emp.id band).length, autoAssignSkipped db emp.id band) := by
  simp only [auto_assign_courses_for_employee, hfind, hband, hbe]
  rw [autoAssignLoops_eq]
  simp

theorem mem_newOfCourses (A : List AssignmentRow) (e : Nat) (cs : List CourseRow)
    (r : AssignmentRow) :
    r ∈ newOfCourses A e cs ↔ ∃ c, c ∈ cs ∧
      (A.find? (fun a => a.employee_id == e && a.course_id == c.id)).isSome = false ∧
      r = mkAssignment e c.id := by
  constructor
  · intro h
    rcases List.mem_map.mp h with ⟨c, hc, hr⟩
    have hcf := List.mem_filter.mp hc
    exact ⟨c, hcf.1, by simpa using hcf.2, hr.symm⟩
  · rintro ⟨c, hc, hb, rfl⟩
    exact List.mem_map.mpr ⟨c, List.mem_filter.mpr ⟨hc, by simp [hb]⟩, rfl⟩

theorem newOfCourses_not_existing (A : List AssignmentRow) (e : Nat) (cs : List CourseRow) :
    ∀ r ∈ newOfCourses A e cs, ∀ b ∈ A,
      ¬(b.employee_id = r.employee_id ∧ b.course_id = r.course_id) := by
  intro r hr b hb hmatch
  rcases (mem_newOfCourses A e cs r).mp hr with ⟨c, _, hfalse, rfl⟩
  have hsome : (A.find? (fun a => a.employee_id == e && a.course_id == c.id)).isSome = true := by
    refine List.find?_isSome.mpr ⟨b, hb, ?_⟩
    simp only [mkAssignment] at hmatch
    simp [hmatch.1, hmatch.2]
  rw [hfalse] at hsome
  exact Bool.false_ne_true hsome

theorem autoAssignNew_not_existing (db : DB) (e : Nat) (band : String) :
    ∀ r ∈ autoAssignNew db e band, ∀ b ∈ db.assignments,
      ¬(b.employee_id = r.employee_id ∧ b.course_id = r.course_id) := by
  intro r hr
  rcases List.mem_append.mp hr with hr1 | hr2
  · rcases List.mem_flatMap.mp hr1 with ⟨req, _, hrin⟩
    rw [reqNew] at hrin
    split at hrin
    · exact newOfCourses_not_existing _ _ _ r hrin
    · exact absurd hrin (List.not_mem_nil r)
  · rcases List.mem_flatMap.mp hr2 with ⟨es, _, hrin⟩
    rw [defNew] at hrin
    split at hrin
    · exact absurd hrin (List.not_mem_nil r)
    · split at hrin
      · exact newOfCourses_not_existing _ _ _ r hrin
      · exact absurd hrin (List.not_mem_nil r)

theorem second_run_group_nil (db : DB) (e : Nat) (sid : Nat) (X : List AssignmentRow)
    (hsub : ∀ r, r ∈ newOfCourses db.assignments e (coursesFor db sid) → r ∈ X) :
    newOfCourses (db.assignments ++ X) e (coursesFor db sid) = [] := by
  rw [newOfCourses, List.map_eq_nil_iff, List.filter_eq_nil_iff]
  intro c hc
  have hsome : ((db.assignments ++ X).find?
      (fun a => a.employee_id == e && a.course_id == c.id)).isSome = true := by
    by_cases hfound : (db.assignments.find?
        (fun a => a.employee_id == e && a.course_id == c.id)).isSome = true
    · rcases Option.isSome_iff_exists.mp hfound with ⟨a, ha⟩
      rw [List.find?_append, ha]
      rfl
    · have hmem : mkAssignment e c.id ∈ newOfCourses db.assignments e (coursesFor db sid) :=
        (mem_newOfCourses _ _ _ _).mpr ⟨c, hc, by simpa using hfound, rfl⟩
      exact List.find?_isSome.mpr ⟨mkAssignment e c.id,
        List.mem_append_right _ (hsub _ hmem), by simp [mkAssignment]⟩
  rw [hsome]
  decide

theorem autoAssignNew_append_covers (db : DB) (e : Nat) (band : String)
    (X : List AssignmentRow)
    (hsup : ∀ r, r ∈ autoAssignNew db e band → r ∈ X) :
    autoAssignNew { db with assignments := db.assignments ++ X } e band = [] := by
  unfold autoAssignNew
  dsimp only
  refine List.append_eq_nil.mpr ⟨?_, ?_⟩
  · rw [List.eq_nil_iff_forall_not_mem]
    intro r hr
    rcases List.mem_flatMap.mp hr with ⟨req, hreq, hrin⟩
    simp only [reqNew] at hrin
    by_cases hcond : rating_to_level (match db.employee_skills.find? (fun es =>
        es.employee_id == e && es.skill_id == req.skill_id) with
        | some es => es.rating
        | none => none) < rating_to_level (some req.required_rating)
    · rw [if_pos hcond] at hrin
      rw [show coursesFor { db with assignments := db.assignments ++ X } req.skill_id =
          coursesFor db req.skill_id from rfl] at hrin
      rw [second_run_group_nil db e req.skill_id X ?_] at hrin
      · exact absurd hrin (List.not_mem_nil r)
      · intro r2 hr2
        refine hsup _ (List.mem_append_left _ (List.mem_flatMap.mpr ⟨req, hreq, ?_⟩))
        rw [reqNew, if_pos hcond]
        exact hr2
    · rw [if_neg hcond] at hrin
      exact absurd hrin (List.not_mem_nil r)
  · rw [List.eq_nil_iff_forall_not_mem]
    intro r hr
    rcases List.mem_flatMap.mp hr with ⟨es, hes, hrin⟩
    simp only [defNew] at hrin
    by_cases hmem : es.skill_id ∈ (db.role_requirements.filter
        (fun r => r.band == band)).map (fun r => r.skill_id)
    · rw [if_pos hmem] at hrin
      exact absurd hrin (List.not_mem_nil r)
    · rw [if_neg hmem] at hrin
      by_cases hlvl : rating_to_level es.rating < rating_to_level
          (some ((List.lookup band BAND_DEFAULT_RATINGS).getD RatingEnum.INTERMEDIATE))
      · rw [if_pos hlvl] at hrin
        rw [show coursesFor { db with assignments := db.assignments ++ X } es.skill_id =
            coursesFor db es.skill_id from rfl] at hrin
        rw [second_run_group_nil db e es.skill_id X ?_] at hrin
        · exact absurd hrin (List.not_mem_nil r)
        · intro r2 hr2
          refine hsup _ (List.mem_append_right _ (List.mem_flatMap.mpr ⟨es, hes, ?_⟩))
          rw [defNew, if_neg hmem, if_pos hlvl]
          exact hr2
      · rw [if_neg hlvl] at hrin
        exact absurd hrin (List.not_mem_nil r)

theorem autoAssignNew_second_run (db : DB) (e : Nat) (band : String) :
    autoAssignNew { db with assignments := db.assignments ++ autoAssignNew db e band }
      e band = [] :=
  autoAssignNew_append_covers db e band (autoAssignNew db e band) (fun _ h => h)

/-- C4: auto-assignment creates a CourseAssignment for an
(employee, course) pair only if no assignment already exists for that
pair, never duplicating or modifying pre-existing rows (the stored table
is extended, with every new row's pair absent from it); consequently a
second run for the same employee with unchanged data creates zero new
assignments and leaves the assignment table unchanged. -/
theorem C4_auto_assign_idempotent (db : DB) (eid : Nat) (db1 : DB) (a1 s1 : Nat)
    (h : auto_assign_courses_for_employee db eid = .ok (db1, a1, s1)) :
    (∃ new, db1.assignments = db.assignments ++ new ∧ a1 = new.length ∧
      ∀ r ∈ new, ∀ b ∈ db.assignments,
        ¬(b.employee_id = r.employee_id ∧ b.course_id = r.course_id)) ∧
    ∃ s2, auto_assign_courses_for_employee db1 eid = .ok (db1, 0, s2) := by
  rcases hfind : db.employees.find? (fun e => e.id == eid) with _ | emp
  · simp [auto_assign_courses_for_employee, hfind] at h
  · rcases hband : emp.band with _ | band
    · simp [auto_assign_courses_for_employee, hfind, hband] at h
    · cases hbe : band.isEmpty with
      | true => simp [auto_assign_courses_for_employee, hfind, hband, hbe] at h
      | false =>
        have heq := auto_assign_for_employee_eq db eid emp band hfind hband hbe
        rw [heq] at h
        rw [Except.ok.injEq, Prod.mk.injEq, Prod.mk.injEq] at h
        obtain ⟨hdb, ha, hs⟩ := h
        constructor
        · refine ⟨autoAssignNew db emp.id band, ?_, ha.symm,
            autoAssignNew_not_existing db emp.id band⟩
          rw [← hdb]
        · refine ⟨autoAssignSkipped db1 emp.id band, ?_⟩
          subst hdb
          have h2 := auto_assign_for_employee_eq
            { db with assignments := db.assignments ++ autoAssignNew db emp.id band }
            eid emp band hfind hband hbe
          rw [autoAssignNew_second_run db emp.id band] at h2
          rw [List.append_nil] at h2
          exact h2

/-- Witness for C4 on a concrete database: one band-C employee with a
Beginner rating on skill 1, an explicit (C, skill 1) → Intermediate
requirement, one course tagged with skill 1, and that course already
assigned (by a first run); the second run creates nothing. -/
theorem C4_witness :
    ∃ s2, auto_assign_courses_for_employee
        ⟨[⟨1, "E1", "N", some "C"⟩], [], [⟨1, 1, some .BEGINNER, false⟩],
          [⟨"C", 1, .INTERMEDIATE, true⟩], [⟨7, some 1⟩],
          [⟨0, 1, 7, .NOT_STARTED, none⟩]⟩ 1 =
      .ok (⟨[⟨1, "E1", "N", some "C"⟩], [], [⟨1, 1, some .BEGINNER, false⟩],
          [⟨"C", 1, .INTERMEDIATE, true⟩], [⟨7, some 1⟩],
          [⟨0, 1, 7, .NOT_STARTED, none⟩]⟩, 0, s2) :=
  (C4_auto_assign_idempotent
    ⟨[⟨1, "E1", "N", some "C"⟩], [], [⟨1, 1, some .BEGINNER, false⟩],
      [⟨"C", 1, .INTERMEDIATE, true⟩], [⟨7, some 1⟩], []⟩ 1
    ⟨[⟨1, "E1", "N", some "C"⟩], [], [⟨1, 1, some .BEGINNER, false⟩],
      [⟨"C", 1, .INTERMEDIATE, true⟩], [⟨7, some 1⟩],
      [⟨0, 1, 7, .NOT_STARTED, none⟩]⟩ 1 0 rfl).2

theorem mem_explicit_ids (db : DB) (band : String) (sid : Nat) :
    sid ∈ (db.role_requirements.filter (fun r => r.band == band)).map
        (fun r => r.skill_id) ↔
      ∃ req, req ∈ db.role_requirements ∧ req.band = band ∧ req.skill_id = sid := by
  simp only [List.mem_map, List.mem_filter, beq_iff_eq]
  constructor
  · rintro ⟨req, ⟨h1, h2⟩, h3⟩
    exact ⟨req, h1, h2, h3⟩
  · rintro ⟨req, h1, h2, h3⟩
    exact ⟨req, ⟨h1, h2⟩, h3⟩

theorem mem_autoAssignNew_shape (db : DB) (e : Nat) (band : String) :
    ∀ r ∈ autoAssignNew db e band, ∃ cid, r = mkAssignment e cid := by
  intro r hr
  rcases List.mem_append.mp hr with h1 | h2
  · rcases List.mem_flatMap.mp h1 with ⟨req, _, hin⟩
    rw [reqNew] at hin
    split at hin
    · rcases (mem_newOfCourses _ _ _ _).mp hin with ⟨c, _, _, hmk⟩
      exact ⟨c.id, hmk⟩
    · exact absurd hin (List.not_mem_nil r)
  · rcases List.mem_flatMap.mp h2 with ⟨es, _, hin⟩
    rw [defNew] at hin
    split at hin
    · exact absurd hin (List.not_mem_nil r)
    · split at hin
      · rcases (mem_newOfCourses _ _ _ _).mp hin with ⟨c, _, _, hmk⟩
        exact ⟨c.id, hmk⟩
      · exact absurd hin (List.not_mem_nil r)

theorem mem_autoAssignNew_iff (db : DB) (e : Nat) (band : String) (cid : Nat) :
    mkAssignment e cid ∈ autoAssignNew db e band ↔
      ((db.assignments.find? (fun a =>
          a.employee_id == e && a.course_id == cid)).isSome = false ∧
        ∃ c, c ∈ db.courses ∧ c.id = cid ∧ ∃ sid, c.skill_id = some sid ∧
          ((∃ req, req ∈ db.role_requirements ∧ req.band = band ∧ req.skill_id = sid ∧
              rating_to_level (match db.employee_skills.find? (fun es =>
                es.employee_id == e && es.skill_id == sid) with
                | some es => es.rating
                | none => none) < rating_to_level (some req.required_rating)) ∨
            ((¬∃ req, req ∈ db.role_requirements ∧ req.band = band ∧
                req.skill_id = sid) ∧
              ∃ es, es ∈ db.employee_skills ∧ es.employee_id = e ∧
                es.is_interested = false ∧ es.skill_id = sid ∧
                rating_to_level es.rating < rating_to_level
                  (some ((List.lookup band BAND_DEFAULT_RATINGS).getD
                    RatingEnum.INTERMEDIATE))))) := by
  constructor
  · intro h
    rcases List.mem_append.mp h with h1 | h2
    · rcases List.mem_flatMap.mp h1 with ⟨req, hreq, hin⟩
      rw [reqNew] at hin
      by_cases hcond : rating_to_level (match db.employee_skills.find? (fun es =>
          es.employee_id == e && es.skill_id == req.skill_id) with
          | some es => es.rating
          | none => none) < rating_to_level (some req.required_rating)
      · rw [if_pos hcond] at hin
        rcases (mem_newOfCourses _ _ _ _).mp hin with ⟨c, hc, hfalse, hmk⟩
        have hcid : cid = c.id := congrArg AssignmentRow.course_id hmk
        rw [coursesFor] at hc
        have hcf := List.mem_filter.mp hc
        have hsk : c.skill_id = some req.skill_id := by simpa using hcf.2
        have hrf := List.mem_filter.mp hreq
        have hrb : req.band = band := by simpa using hrf.2
        subst hcid
        exact ⟨hfalse, c, hcf.1, rfl, req.skill_id, hsk,
          Or.inl ⟨req, hrf.1, hrb, rfl, hcond⟩⟩
      · rw [if_neg hcond] at hin
        exact absurd hin (List.not_mem_nil _)
    · rcases List.mem_flatMap.mp h2 with ⟨es, hes, hin⟩
      rw [defNew] at hin
      by_cases hmem : es.skill_id ∈ (db.role_requirements.filter
          (fun r => r.band == band)).map (fun r => r.skill_id)
      · rw [if_pos hmem] at hin
        exact absurd hin (List.not_mem_nil _)
      · rw [if_neg hmem] at hin
        by_cases hlvl : rating_to_level es.rating < rating_to_level
            (some ((List.lookup band BAND_DEFAULT_RATINGS).getD RatingEnum.INTERMEDIATE))
        · rw [if_pos hlvl] at hin
          rcases (mem_newOfCourses _ _ _ _).mp hin with ⟨c, hc, hfalse, hmk⟩
          have hcid : cid = c.id := congrArg AssignmentRow.course_id hmk
          rw [coursesFor] at hc
          have hcf := List.mem_filter.mp hc
          have hsk : c.skill_id = some es.skill_id := by simpa using hcf.2
          have hef := List.mem_filter.mp hes
          have heb : es.employee_id = e ∧ es.is_interested = false := by
            simpa using hef.2
          subst hcid
          exact ⟨hfalse, c, hcf.1, rfl, es.skill_id, hsk,
            Or.inr ⟨(mem_explicit_ids db band es.skill_id).not.mp hmem,
              es, hef.1, heb.1, heb.2, rfl, hlvl⟩⟩
        · rw [if_neg hlvl] at hin
          exact absurd hin (List.not_mem_nil _)
  · rintro ⟨hfalse, c, hcm, hcid, sid, hsk, hdisj⟩
    rcases hdisj with ⟨req, hreqm, hreqband, hreqskill, hcond⟩ |
      ⟨hnone, es, hesm, hese, hesi, hesk, hlvl⟩
    · refine List.mem_append_left _ (List.mem_flatMap.mpr
        ⟨req, List.mem_filter.mpr ⟨hreqm, by simp [hreqband]⟩, ?_⟩)
      rw [reqNew, if_pos (by rw [hreqskill]; exact hcond)]
      refine (mem_newOfCourses _ _ _ _).mpr ⟨c, ?_, ?_, ?_⟩
      · rw [coursesFor]
        exact List.mem_filter.mpr ⟨hcm, by rw [hreqskill]; simp [hsk]⟩
      · rw [hcid]
        exact hfalse
      · rw [hcid]
    · refine List.mem_append_right _ (List.mem_flatMap.mpr
        ⟨es, List.mem_filter.mpr ⟨hesm, by simp [hese, hesi]⟩, ?_⟩)
      have hnotmem : es.skill_id ∉ (db.role_requirements.filter
          (fun r => r.band == band)).map (fun r => r.skill_id) := by
        rw [hesk]
        exact (mem_explicit_ids db band sid).not.mpr hnone
      rw [defNew, if_neg hnotmem, if_pos hlvl]
      refine (mem_newOfCourses _ _ _ _).mpr ⟨c, ?_, ?_, ?_⟩
      · rw [coursesFor]
        exact List.mem_filter.mpr ⟨hcm, by rw [hesk]; simp [hsk]⟩
      · rw [hcid]
        exact hfalse
      · rw [hcid]

/-- C5: auto-assignment selects courses for a skill exactly when the
employee's current level is strictly below the required level (equality or
surplus triggers nothing), where a missing SkillRating row, or a null
current_rating, ranks as level 0 — strictly below every requirement.  The
final equivalence characterises the created rows: a course's assignment is
created iff its pair is not already assigned and its skill is strictly
deficient under the explicit requirement (missing row ⇒ level 0) or, for
skills without an explicit requirement, under the band default. -/
theorem C5_strict_deficiency (db : DB) (eid : Nat) (emp : EmployeeRow) (band : String)
    (hfind : db.employees.find? (fun e => e.id == eid) = some emp)
    (hband : emp.band = some band) (hbe : band.isEmpty = false) :
    rating_to_level none = 0 ∧
    (∀ r : RatingEnum, 0 < rating_to_level (some r)) ∧
    auto_assign_courses_for_employee db eid = .ok
      ({ db with assignments := db.assignments ++ autoAssignNew db emp.id band },
        (autoAssignNew db emp.id band).length, autoAssignSkipped db emp.id band) ∧
    (∀ r ∈ autoAssignNew db emp.id band, ∃ cid, r = mkAssignment emp.id cid) ∧
    ∀ cid : Nat, mkAssignment emp.id cid ∈ autoAssignNew db emp.id band ↔
      ((db.assignments.find? (fun a =>
          a.employee_id == emp.id && a.course_id == cid)).isSome = false ∧
        ∃ c, c ∈ db.courses ∧ c.id = cid ∧ ∃ sid, c.skill_id = some sid ∧
          ((∃ req, req ∈ db.role_requirements ∧ req.band = band ∧ req.skill_id = sid ∧
              rating_to_level (match db.employee_skills.find? (fun es =>
                es.employee_id == emp.id && es.skill_id == sid) with
                | some es => es.rating
                | none => none) < rating_to_level (some req.required_rating)) ∨
            ((¬∃ req, req ∈ db.role_requirements ∧ req.band = band ∧
                req.skill_id = sid) ∧
              ∃ es, es ∈ db.employee_skills ∧ es.employee_id = emp.id ∧
                es.is_interested = false ∧ es.skill_id = sid ∧
                rating_to_level es.rating < rating_to_level
                  (some ((List.lookup band BAND_DEFAULT_RATINGS).getD
                    RatingEnum.INTERMEDIATE))))) :=
  ⟨rfl, fun r => by cases r <;> decide,
    auto_assign_for_employee_eq db eid emp band hfind hband hbe,
    mem_autoAssignNew_shape db emp.id band,
    fun cid => mem_autoAssignNew_iff db emp.id band cid⟩

/-- Witness for C5 on the specification's own scenario: band-C employee
with SQL (skill 1) Advanced and Docker (skill 2) Beginner, explicit
requirement (C, SQL) → Intermediate, no requirement for Docker, one course
per skill: exactly the Docker course is assigned. -/
theorem C5_witness :
    auto_assign_courses_for_employee
        ⟨[⟨1, "E1", "N", some "C"⟩], [⟨1, "SQL", none⟩, ⟨2, "Docker", none⟩],
          [⟨1, 1, some .ADVANCED, false⟩, ⟨1, 2, some .BEGINNER, false⟩],
          [⟨"C", 1, .INTERMEDIATE, true⟩], [⟨8, some 1⟩, ⟨9, some 2⟩], []⟩ 1 =
      .ok (⟨[⟨1, "E1", "N", some "C"⟩], [⟨1, "SQL", none⟩, ⟨2, "Docker", none⟩],
          [⟨1, 1, some .ADVANCED, false⟩, ⟨1, 2, some .BEGINNER, false⟩],
          [⟨"C", 1, .INTERMEDIATE, true⟩], [⟨8, some 1⟩, ⟨9, some 2⟩],
          [⟨0, 1, 9, .NOT_STARTED, none⟩]⟩, 1, 0) := by
  have h := (C5_strict_deficiency
    ⟨[⟨1, "E1", "N", some "C"⟩], [⟨1, "SQL", none⟩, ⟨2, "Docker", none⟩],
      [⟨1, 1, some .ADVANCED, false⟩, ⟨1, 2, some .BEGINNER, false⟩],
      [⟨"C", 1, .INTERMEDIATE, true⟩], [⟨8, some 1⟩, ⟨9, some 2⟩], []⟩ 1
    ⟨1, "E1", "N", some "C"⟩ "C" rfl rfl rfl).2.2.1
  rw [h]
  rfl

theorem mem_joined_skill_mem (db : DB) (i : Nat) (row : EmployeeSkillRow × SkillRow)
    (h : row ∈ joinedQualifyingSkills db i) : row.2 ∈ db.skills := by
  rcases List.mem_filterMap.mp h with ⟨es, _, hmap⟩
  rcases Option.map_eq_some'.mp hmap with ⟨s, hs, hrow⟩
  have hmem := List.mem_of_find?_eq_some hs
  rw [← hrow]
  exact hmem

theorem gapRecord_resolution (db : DB) (i : Nat) (eid name : String)
    (huniq : ∀ r1, r1 ∈ db.role_requirements → ∀ r2, r2 ∈ db.role_requirements →
      r1.band = r2.band → r1.skill_id = r2.skill_id → r1 = r2) :
    ∀ g ∈ (get_employee_band_analysis db i eid name).skill_gaps,
      (∀ req, req ∈ db.role_requirements →
        req.band = (get_employee_band_analysis db i eid name).band →
        req.skill_id = g.skill_id →
        g.required_rating_number = RATING_TO_NUMBER req.required_rating ∧
        g.required_rating_text = req.required_rating.value ∧
        g.is_required = req.is_required) ∧
      ((¬∃ req, req ∈ db.role_requirements ∧
          req.band = (get_employee_band_analysis db i eid name).band ∧
          req.skill_id = g.skill_id) →
        g.required_rating_number = 3 ∧ g.required_rating_text = "Intermediate" ∧
        g.is_required = true) := by
  intro g hg
  unfold get_employee_band_analysis at hg ⊢
  split at hg
  · exact absurd hg (List.not_mem_nil g)
  · next hne =>
    simp only at hg ⊢
    rw [if_neg hne]
    simp only
    rcases List.mem_map.mp hg with ⟨row, hrow, hgr⟩
    have hskmem := mem_joined_skill_mem db i row hrow
    rcases hlook : requirementMapLookup db
        (calculate_band (analysisAverage db i)) row.2.id with _ | req0
    · have hgfields : g.skill_id = row.2.id ∧ g.required_rating_number = 3 ∧
          g.required_rating_text = "Intermediate" ∧ g.is_required = true := by
        rw [← hgr]
        simp [gapRecordOf, hlook]
      constructor
      · intro req hreqm hreqb hreqs
        exfalso
        rw [requirementMapLookup, List.find?_eq_none] at hlook
        refine hlook req ?_ ?_
        · rw [List.mem_reverse]
          refine List.mem_filter.mpr ⟨List.mem_filter.mpr ⟨hreqm, by simp [hreqb]⟩, ?_⟩
          have : (db.skills.find? (fun s => s.id == req.skill_id)).isSome = true := by
            refine List.find?_isSome.mpr ⟨row.2, hskmem, ?_⟩
            rw [hreqs, hgfields.1]
            simp
          simp [this]
        · rw [hreqs, hgfields.1]
          simp
      · intro _
        exact hgfields.2
    · have hp := List.find?_some hlook
      have hm := List.mem_of_find?_eq_some hlook
      rw [List.mem_reverse] at hm
      have hm1 := List.mem_filter.mp hm
      have hm2 := List.mem_filter.mp hm1.1
      have hr0band : req0.band = calculate_band (analysisAverage db i) := by
        simpa using hm2.2
      have hr0skill : req0.skill_id = row.2.id := by simpa using hp
      have hgfields : g.skill_id = row.2.id ∧
          g.required_rating_number = RATING_TO_NUMBER req0.required_rating ∧
          g.required_rating_text = req0.required_rating.value ∧
          g.is_required = req0.is_required := by
        rw [← hgr]
        simp [gapRecordOf, hlook]
      constructor
      · intro req hreqm hreqb hreqs
        have : req = req0 := huniq req hreqm req0 hm2.1
          (by rw [hreqb, hr0band]) (by rw [hreqs, hgfields.1, hr0skill])
        subst this
        exact hgfields.2
      · intro hnone
        exact absurd ⟨req0, hm2.1, hr0band, by rw [hr0skill, hgfields.1]⟩ hnone

theorem autoAssign_explicit_precedence (db : DB) (e : Nat) (band : String)
    (huniq : ∀ r1, r1 ∈ db.role_requirements → ∀ r2, r2 ∈ db.role_requirements →
      r1.band = r2.band → r1.skill_id = r2.skill_id → r1 = r2)
    (hcuniq : ∀ c1, c1 ∈ db.courses → ∀ c2, c2 ∈ db.courses → c1.id = c2.id → c1 = c2) :
    ∀ req, req ∈ db.role_requirements → req.band = band →
      ∀ c, c ∈ db.courses → c.skill_id = some req.skill_id →
        (mkAssignment e c.id ∈ autoAssignNew db e band ↔
          ((db.assignments.find? (fun a =>
              a.employee_id == e && a.course_id == c.id)).isSome = false ∧
            rating_to_level (match db.employee_skills.find? (fun es =>
              es.employee_id == e && es.skill_id == req.skill_id) with
              | some es => es.rating
              | none => none) < rating_to_level (some req.required_rating))) := by
  intro req hreqm hreqb c hcm hcs
  rw [mem_autoAssignNew_iff]
  constructor
  · rintro ⟨hfalse, c2, hc2m, hc2id, sid, hc2sk, hdisj⟩
    have hc2 : c2 = c := hcuniq c2 hc2m c hcm hc2id
    subst hc2
    have hsid : sid = req.skill_id := (Option.some.inj (hcs.symm.trans hc2sk)).symm
    subst hsid
    rcases hdisj with ⟨req2, hreq2m, hreq2b, hreq2s, hcond⟩ | ⟨hnone, _⟩
    · have hre : req2 = req := huniq req2 hreq2m req hreqm
        (by rw [hreq2b, hreqb]) hreq2s
      subst hre
      exact ⟨hfalse, hcond⟩
    · exact absurd ⟨req, hreqm, hreqb, rfl⟩ hnone
  · rintro ⟨hfalse, hcond⟩
    exact ⟨hfalse, c, hcm, rfl, req.skill_id, hcs,
      Or.inl ⟨req, hreqm, hreqb, rfl, hcond⟩⟩

theorem autoAssign_default_fallback (db : DB) (e : Nat) (band : String)
    (hcuniq : ∀ c1, c1 ∈ db.courses → ∀ c2, c2 ∈ db.courses → c1.id = c2.id → c1 = c2) :
    ∀ sid, (¬∃ req, req ∈ db.role_requirements ∧ req.band = band ∧
        req.skill_id = sid) →
      ∀ c, c ∈ db.courses → c.skill_id = some sid →
        (mkAssignment e c.id ∈ autoAssignNew db e band ↔
          ((db.assignments.find? (fun a =>
              a.employee_id == e && a.course_id == c.id)).isSome = false ∧
            ∃ es, es ∈ db.employee_skills ∧ es.employee_id = e ∧
              es.is_interested = false ∧ es.skill_id = sid ∧
              rating_to_level es.rating < rating_to_level
                (some ((List.lookup band BAND_DEFAULT_RATINGS).getD
                  RatingEnum.INTERMEDIATE)))) := by
  intro sid hnone c hcm hcs
  rw [mem_autoAssignNew_iff]
  constructor
  · rintro ⟨hfalse, c2, hc2m, hc2id, sid2, hc2sk, hdisj⟩
    have hc2 : c2 = c := hcuniq c2 hc2m c hcm hc2id
    subst hc2
    have hsid : sid2 = sid := (Option.some.inj (hcs.symm.trans hc2sk)).symm
    subst hsid
    rcases hdisj with ⟨req2, hm2, hb2, hs2, _⟩ | ⟨_, hes⟩
    · exact absurd ⟨req2, hm2, hb2, hs2⟩ hnone
    · exact ⟨hfalse, hes⟩
  · rintro ⟨hfalse, es, hesm, h1, h2, h3, h4⟩
    exact ⟨hfalse, c, hcm, rfl, sid, hcs, Or.inr ⟨hnone, es, hesm, h1, h2, h3, h4⟩⟩

/-- C3: requirement resolution always prefers the explicit RoleRequirement
row of the (band, skill) pair when one exists — in the band-analysis path
its `required_rating` and `is_required` are used, and in the auto-assign
path the course selection for such a skill is decided by the explicit
required rating alone — and only when no row exists does a default fire:
the band-analysis path defaults unconditionally to Intermediate (3) with
`is_required = true`, while the auto-assignment path defaults per band
(A → Beginner, B → Developing, C → Intermediate, L1 → Advanced,
L2 → Expert).  The uniqueness hypotheses are the `(band, skill_id)` and
course primary-key constraints of the schema. -/
theorem C3_requirement_precedence :
    (List.lookup "A" BAND_DEFAULT_RATINGS = some RatingEnum.BEGINNER ∧
      List.lookup "B" BAND_DEFAULT_RATINGS = some RatingEnum.DEVELOPING ∧
      List.lookup "C" BAND_DEFAULT_RATINGS = some RatingEnum.INTERMEDIATE ∧
      List.lookup "L1" BAND_DEFAULT_RATINGS = some RatingEnum.ADVANCED ∧
      List.lookup "L2" BAND_DEFAULT_RATINGS = some RatingEnum.EXPERT) ∧
    (∀ (db : DB) (i : Nat) (eid name : String),
      (∀ r1, r1 ∈ db.role_requirements → ∀ r2, r2 ∈ db.role_requirements →
        r1.band = r2.band → r1.skill_id = r2.skill_id → r1 = r2) →
      ∀ g ∈ (get_employee_band_analysis db i eid name).skill_gaps,
        (∀ req, req ∈ db.role_requirements →
          req.band = (get_employee_band_analysis db i eid name).band →
          req.skill_id = g.skill_id →
          g.required_rating_number = RATING_TO_NUMBER req.required_rating ∧
          g.required_rating_text = req.required_rating.value ∧
          g.is_required = req.is_required) ∧
        ((¬∃ req, req ∈ db.role_requirements ∧
            req.band = (get_employee_band_analysis db i eid name).band ∧
            req.skill_id = g.skill_id) →
          g.required_rating_number = 3 ∧ g.required_rating_text = "Intermediate" ∧
          g.is_required = true)) ∧
    (∀ (db : DB) (e : Nat) (band : String),
      (∀ r1, r1 ∈ db.role_requirements → ∀ r2, r2 ∈ db.role_requirements →
        r1.band = r2.band → r1.skill_id = r2.skill_id → r1 = r2) →
      (∀ c1, c1 ∈ db.courses → ∀ c2, c2 ∈ db.courses → c1.id = c2.id → c1 = c2) →
      (∀ req, req ∈ db.role_requirements → req.band = band →
        ∀ c, c ∈ db.courses → c.skill_id = some req.skill_id →
          (mkAssignment e c.id ∈ autoAssignNew db e band ↔
            ((db.assignments.find? (fun a =>
                a.employee_id == e && a.course_id == c.id)).isSome = false ∧
              rating_to_level (match db.employee_skills.find? (fun es =>
                es.employee_id == e && es.skill_id == req.skill_id) with
                | some es => es.rating
                | none => none) < rating_to_level (some req.required_rating)))) ∧
      (∀ sid, (¬∃ req, req ∈ db.role_requirements ∧ req.band = band ∧
          req.skill_id = sid) →
        ∀ c, c ∈ db.courses → c.skill_id = some sid →
          (mkAssignment e c.id ∈ autoAssignNew db e band ↔
            ((db.assignments.find? (fun a =>
                a.employee_id == e && a.course_id == c.id)).isSome = false ∧
              ∃ es, es ∈ db.employee_skills ∧ es.employee_id = e ∧
                es.is_interested = false ∧ es.skill_id = sid ∧
                rating_to_level es.rating < rating_to_level
                  (some ((List.lookup band BAND_DEFAULT_RATINGS).getD
                    RatingEnum.INTERMEDIATE)))))) :=
  ⟨⟨rfl, rfl, rfl, rfl, rfl⟩,
    fun db i eid name huniq => gapRecord_resolution db i eid name huniq,
    fun db e band huniq hcuniq =>
      ⟨autoAssign_explicit_precedence db e band huniq hcuniq,
        autoAssign_default_fallback db e band hcuniq⟩⟩

/-- Witness for C3 on the SQL/Docker scenario: the explicit (C, SQL)
requirement decides the SQL course's assignment. -/
theorem C3_witness :
    mkAssignment 1 8 ∈ autoAssignNew
        ⟨[⟨1, "E1", "N", some "C"⟩], [⟨1, "SQL", none⟩, ⟨2, "Docker", none⟩],
          [⟨1, 1, some .ADVANCED, false⟩, ⟨1, 2, some .BEGINNER, false⟩],
          [⟨"C", 1, .INTERMEDIATE, true⟩], [⟨8, some 1⟩, ⟨9, some 2⟩], []⟩ 1 "C" ↔
      ((([] : List AssignmentRow).find? (fun a =>
          a.employee_id == 1 && a.course_id == 8)).isSome = false ∧
        rating_to_level (match ([⟨1, 1, some .ADVANCED, false⟩,
            ⟨1, 2, some .BEGINNER, false⟩] : List EmployeeSkillRow).find? (fun es =>
            es.employee_id == 1 && es.skill_id == 1) with
            | some es => es.rating
            | none => none) < rating_to_level (some RatingEnum.INTERMEDIATE)) :=
  (C3_requirement_precedence.2.2
    ⟨[⟨1, "E1", "N", some "C"⟩], [⟨1, "SQL", none⟩, ⟨2, "Docker", none⟩],
      [⟨1, 1, some .ADVANCED, false⟩, ⟨1, 2, some .BEGINNER, false⟩],
      [⟨"C", 1, .INTERMEDIATE, true⟩], [⟨8, some 1⟩, ⟨9, some 2⟩], []⟩ 1 "C"
    (by decide) (by decide)).1 ⟨"C", 1, .INTERMEDIATE, true⟩ (by decide) rfl
    ⟨8, some 1⟩ (by decide) rfl

/-- The same database with every `is_interested = true` SkillRating row
removed: the reference state for the non-participation property. -/
def eraseInterested (db : DB) : DB :=
  { db with employee_skills :=
      db.employee_skills.filter (fun es => es.is_interested == false) }

theorem qualifyingSkills_erase (db : DB) (i : Nat) :
    qualifyingSkills (eraseInterested db) i = qualifyingSkills db i := by
  rw [qualifyingSkills, qualifyingSkills, eraseInterested]
  dsimp only
  rw [List.filter_filter]
  apply List.filter_congr
  intro es _
  cases hi : es.is_interested <;> simp [hi]

theorem empSkillsFilter_erase (db : DB) (e : Nat) :
    (eraseInterested db).employee_skills.filter (fun es =>
        es.employee_id == e && es.is_interested == false) =
      db.employee_skills.filter (fun es =>
        es.employee_id == e && es.is_interested == false) := by
  rw [eraseInterested]
  dsimp only
  rw [List.filter_filter]
  apply List.filter_congr
  intro es _
  cases hi : es.is_interested <;> simp [hi]

theorem joined_erase (db : DB) (i : Nat) :
    joinedQualifyingSkills (eraseInterested db) i = joinedQualifyingSkills db i := by
  unfold joinedQualifyingSkills
  rw [qualifyingSkills_erase]
  rfl

theorem analysisAverage_erase (db : DB) (i : Nat) :
    analysisAverage (eraseInterested db) i = analysisAverage db i := by
  unfold analysisAverage
  rw [joined_erase]

theorem analysisGaps_erase (db : DB) (i : Nat) :
    analysisGaps (eraseInterested db) i = analysisGaps db i := by
  unfold analysisGaps
  rw [joined_erase, analysisAverage_erase]
  rfl

theorem calculate_employee_band_erase (db : DB) (i : Nat) :
    calculate_employee_band (eraseInterested db) i = calculate_employee_band db i := by
  unfold calculate_employee_band
  rw [qualifyingSkills_erase]

theorem analysis_erase (db : DB) (i : Nat) (eid name : String) :
    get_employee_band_analysis (eraseInterested db) i eid name =
      get_employee_band_analysis db i eid name := by
  unfold get_employee_band_analysis
  rw [joined_erase, analysisAverage_erase, analysisGaps_erase]

theorem find?_empSkill_erase_none (db : DB) (e sid : Nat)
    (h : db.employee_skills.find? (fun es =>
      es.employee_id == e && es.skill_id == sid) = none) :
    (eraseInterested db).employee_skills.find? (fun es =>
      es.employee_id == e && es.skill_id == sid) = none := by
  rw [List.find?_eq_none] at h ⊢
  intro x hx
  have hx2 : x ∈ db.employee_skills.filter (fun es => es.is_interested == false) := hx
  exact h x (List.mem_filter.mp hx2).1

theorem find?_empSkill_erase_some_int (db : DB) (e sid : Nat) (es0 : EmployeeSkillRow)
    (huniq : ∀ es1, es1 ∈ db.employee_skills → ∀ es2, es2 ∈ db.employee_skills →
      es1.employee_id = es2.employee_id → es1.skill_id = es2.skill_id → es1 = es2)
    (h : db.employee_skills.find? (fun es =>
      es.employee_id == e && es.skill_id == sid) = some es0)
    (hint : es0.is_interested = true) :
    (eraseInterested db).employee_skills.find? (fun es =>
      es.employee_id == e && es.skill_id == sid) = none := by
  rw [List.find?_eq_none]
  intro x hx hpx
  have hx2 : x ∈ db.employee_skills.filter (fun es => es.is_interested == false) := hx
  have hxdb := (List.mem_filter.mp hx2).1
  have hxint := (List.mem_filter.mp hx2).2
  have hp := List.find?_some h
  have hm := List.mem_of_find?_eq_some h
  simp only [Bool.and_eq_true, beq_iff_eq] at hp hpx
  have hxe : x = es0 := huniq x hxdb es0 hm (by rw [hpx.1, hp.1]) (by rw [hpx.2, hp.2])
  rw [hxe, hint] at hxint
  exact absurd hxint (by decide)

theorem find?_empSkill_erase_some_notint (db : DB) (e sid : Nat) (es0 : EmployeeSkillRow)
    (huniq : ∀ es1, es1 ∈ db.employee_skills → ∀ es2, es2 ∈ db.employee_skills →
      es1.employee_id = es2.employee_id → es1.skill_id = es2.skill_id → es1 = es2)
    (h : db.employee_skills.find? (fun es =>
      es.employee_id == e && es.skill_id == sid) = some es0)
    (hint : es0.is_interested = false) :
    (eraseInterested db).employee_skills.find? (fun es =>
      es.employee_id == e && es.skill_id == sid) = some es0 := by
  have hp := List.find?_some h
  have hm := List.mem_of_find?_eq_some h
  have hm2 : es0 ∈ (eraseInterested db).employee_skills :=
    List.mem_filter.mpr ⟨hm, by simp [hint]⟩
  rcases hfe : (eraseInterested db).employee_skills.find? (fun es =>
      es.employee_id == e && es.skill_id == sid) with _ | x
  · exfalso
    rw [List.find?_eq_none] at hfe
    exact hfe es0 hm2 hp
  · have hxp := List.find?_some hfe
    have hxm := List.mem_of_find?_eq_some hfe
    have hxm2 : x ∈ db.employee_skills.filter (fun es => es.is_interested == false) := hxm
    have hxdb := (List.mem_filter.mp hxm2).1
    simp only [Bool.and_eq_true, beq_iff_eq] at hp hxp
    have hxe : x = es0 := huniq x hxdb es0 hm (by rw [hxp.1, hp.1]) (by rw [hxp.2, hp.2])
    rw [hxe] at hfe
    exact hfe

theorem reqNew_erase (db : DB) (e : Nat) (requirement : RoleRequirementRow)
    (hnull : ∀ es ∈ db.employee_skills, es.is_interested = true → es.rating = none)
    (huniq : ∀ es1, es1 ∈ db.employee_skills → ∀ es2, es2 ∈ db.employee_skills →
      es1.employee_id = es2.employee_id → es1.skill_id = es2.skill_id → es1 = es2) :
    reqNew (eraseInterested db) e requirement = reqNew db e requirement := by
  unfold reqNew
  rcases horig : db.employee_skills.find? (fun es =>
      es.employee_id == e && es.skill_id == requirement.skill_id) with _ | es0
  · rw [horig, find?_empSkill_erase_none db e requirement.skill_id horig]
    rfl
  · by_cases hint : es0.is_interested = true
    · have hrat := hnull es0 (List.mem_of_find?_eq_some horig) hint
      rw [horig,
        find?_empSkill_erase_some_int db e requirement.skill_id es0 huniq horig hint]
      dsimp only
      rw [hrat]
      rfl
    · have hintf : es0.is_interested = false := by
        cases hi : es0.is_interested
        · rfl
        · exact absurd hi hint
      rw [horig,
        find?_empSkill_erase_some_notint db e requirement.skill_id es0 huniq horig hintf]
      rfl

theorem reqSkip_erase (db : DB) (e : Nat) (requirement : RoleRequirementRow)
    (hnull : ∀ es ∈ db.employee_skills, es.is_interested = true → es.rating = none)
    (huniq : ∀ es1, es1 ∈ db.employee_skills → ∀ es2, es2 ∈ db.employee_skills →
      es1.employee_id = es2.employee_id → es1.skill_id = es2.skill_id → es1 = es2) :
    reqSkip (eraseInterested db) e requirement = reqSkip db e requirement := by
  unfold reqSkip
  rcases horig : db.employee_skills.find? (fun es =>
      es.employee_id == e && es.skill_id == requirement.skill_id) with _ | es0
  · rw [horig, find?_empSkill_erase_none db e requirement.skill_id horig]
    rfl
  · by_cases hint : es0.is_interested = true
    · have hrat := hnull es0 (List.mem_of_find?_eq_some horig) hint
      rw [horig,
        find?_empSkill_erase_some_int db e requirement.skill_id es0 huniq horig hint]
      dsimp only
      rw [hrat]
      rfl
    · have hintf : es0.is_interested = false := by
        cases hi : es0.is_interested
        · rfl
        · exact absurd hi hint
      rw [horig,
        find?_empSkill_erase_some_notint db e requirement.skill_id es0 huniq horig hintf]
      rfl

theorem autoAssignNew_erase (db : DB) (e : Nat) (band : String)
    (hnull : ∀ es ∈ db.employee_skills, es.is_interested = true → es.rating = none)
    (huniq : ∀ es1, es1 ∈ db.employee_skills → ∀ es2, es2 ∈ db.employee_skills →
      es1.employee_id = es2.employee_id → es1.skill_id = es2.skill_id → es1 = es2) :
    autoAssignNew (eraseInterested db) e band = autoAssignNew db e band := by
  unfold autoAssignNew
  rw [show (eraseInterested db).role_requirements = db.role_requirements from rfl,
    empSkillsFilter_erase db e]
  rw [show (db.role_requirements.filter (fun r => r.band == band)).flatMap
        (reqNew (eraseInterested db) e) =
      (db.role_requirements.filter (fun r => r.band == band)).flatMap (reqNew db e) from
    congrArg _ (funext fun r => reqNew_erase db e r hnull huniq)]
  rfl

theorem autoAssignSkipped_erase (db : DB) (e : Nat) (band : String)
    (hnull : ∀ es ∈ db.employee_skills, es.is_interested = true → es.rating = none)
    (huniq : ∀ es1, es1 ∈ db.employee_skills → ∀ es2, es2 ∈ db.employee_skills →
      es1.employee_id = es2.employee_id → es1.skill_id = es2.skill_id → es1 = es2) :
    autoAssignSkipped (eraseInterested db) e band = autoAssignSkipped db e band := by
  unfold autoAssignSkipped
  rw [show (eraseInterested db).role_requirements = db.role_requirements from rfl,
    empSkillsFilter_erase db e]
  rw [show (db.role_requirements.filter (fun r => r.band == band)).map
        (reqSkip (eraseInterested db) e) =
      (db.role_requirements.filter (fun r => r.band == band)).map (reqSkip db e) from
    congrArg (fun f => (db.role_requirements.filter (fun r => r.band == band)).map f)
      (funext fun r => reqSkip_erase db e r hnull huniq)]
  rfl

theorem auto_assign_erase_eq (db : DB) (eid : Nat)
    (hnull : ∀ es ∈ db.employee_skills, es.is_interested = true → es.rating = none)
    (huniq : ∀ es1, es1 ∈ db.employee_skills → ∀ es2, es2 ∈ db.employee_skills →
      es1.employee_id = es2.employee_id → es1.skill_id = es2.skill_id → es1 = es2) :
    (auto_assign_courses_for_employee (eraseInterested db) eid).map
        (fun r => (r.1.assignments, r.2)) =
      (auto_assign_courses_for_employee db eid).map
        (fun r => (r.1.assignments, r.2)) := by
  rcases hfind : db.employees.find? (fun e => e.id == eid) with _ | emp
  · have hfind2 : (eraseInterested db).employees.find? (fun e => e.id == eid) = none := hfind
    simp [auto_assign_courses_for_employee, hfind, hfind2]
  · have hfind2 : (eraseInterested db).employees.find? (fun e => e.id == eid) =
      some emp := hfind
    rcases hband : emp.band with _ | band
    · simp [auto_assign_courses_for_employee, hfind, hfind2, hband]
    · cases hbe : band.isEmpty with
      | true => simp [auto_assign_courses_for_employee, hfind, hfind2, hband, hbe]
      | false =>
        rw [auto_assign_for_employee_eq db eid emp band hfind hband hbe,
          auto_assign_for_employee_eq (eraseInterested db) eid emp band hfind2 hband hbe]
        simp only [Except.map]
        rw [autoAssignNew_erase db emp.id band hnull huniq,
          autoAssignSkipped_erase db emp.id band hnull huniq]
        rfl

/-- Counterexample to C7 as stated: a SkillRating row with
`is_interested = true` and a non-null rating (a state the PUT update
endpoints can produce, since they set `rating` without touching
`is_interested`) does participate in the deficiency check of the
explicit-requirement pass of auto-assignment, whose EmployeeSkill query
carries no `is_interested` filter.  With the interested Expert row
present, the band-C employee is judged non-deficient on skill 1 and no
course is assigned; erasing exactly the interested rows (second conjunct)
makes the employee deficient (level 0 < 3) and the course is assigned. -/
theorem C7_counterexample :
    auto_assign_courses_for_employee
        ⟨[⟨1, "E1", "N", some "C"⟩], [], [⟨1, 1, some .EXPERT, true⟩],
          [⟨"C", 1, .INTERMEDIATE, true⟩], [⟨7, some 1⟩], []⟩ 1 =
      .ok (⟨[⟨1, "E1", "N", some "C"⟩], [], [⟨1, 1, some .EXPERT, true⟩],
          [⟨"C", 1, .INTERMEDIATE, true⟩], [⟨7, some 1⟩], []⟩, 0, 0) ∧
    eraseInterested
        ⟨[⟨1, "E1", "N", some "C"⟩], [], [⟨1, 1, some .EXPERT, true⟩],
          [⟨"C", 1, .INTERMEDIATE, true⟩], [⟨7, some 1⟩], []⟩ =
      ⟨[⟨1, "E1", "N", some "C"⟩], [], [],
        [⟨"C", 1, .INTERMEDIATE, true⟩], [⟨7, some 1⟩], []⟩ ∧
    auto_assign_courses_for_employee
        ⟨[⟨1, "E1", "N", some "C"⟩], [], [],
          [⟨"C", 1, .INTERMEDIATE, true⟩], [⟨7, some 1⟩], []⟩ 1 =
      .ok (⟨[⟨1, "E1", "N", some "C"⟩], [], [],
          [⟨"C", 1, .INTERMEDIATE, true⟩], [⟨7, some 1⟩],
          [⟨0, 1, 7, .NOT_STARTED, none⟩]⟩, 1, 0) :=
  ⟨rfl, rfl, rfl⟩

/-- C7 as amended: an `is_interested = true` SkillRating never
participates in band computation or in band-analysis gap computation
(erasing all interested rows changes neither result, unconditionally),
and it does not affect the deficiency checks of auto-assignment provided
interested rows carry a null `current_rating` — the state the write paths
maintain — and the `(employee, skill)` unique constraint holds; under
those hypotheses erasing the interested rows leaves the created
assignments and both counters of the per-employee auto-assignment
unchanged. -/
theorem C7_interested_never_participates :
    (∀ (db : DB) (i : Nat), calculate_employee_band (eraseInterested db) i =
      calculate_employee_band db i) ∧
    (∀ (db : DB) (i : Nat) (eid name : String),
      get_employee_band_analysis (eraseInterested db) i eid name =
        get_employee_band_analysis db i eid name) ∧
    (∀ (db : DB) (eid : Nat),
      (∀ es ∈ db.employee_skills, es.is_interested = true → es.rating = none) →
      (∀ es1, es1 ∈ db.employee_skills → ∀ es2, es2 ∈ db.employee_skills →
        es1.employee_id = es2.employee_id → es1.skill_id = es2.skill_id → es1 = es2) →
      (auto_assign_courses_for_employee (eraseInterested db) eid).map
          (fun r => (r.1.assignments, r.2)) =
        (auto_assign_courses_for_employee db eid).map
          (fun r => (r.1.assignments, r.2))) :=
  ⟨calculate_employee_band_erase,
    analysis_erase,
    fun db eid hnull huniq => auto_assign_erase_eq db eid hnull huniq⟩

/-- Witness for the amended C7 on a concrete database whose interested row
has (as the write paths intend) a null rating: erasing it changes nothing
observable about auto-assignment. -/
theorem C7_witness :
    (auto_assign_courses_for_employee
        (eraseInterested ⟨[⟨1, "E1", "N", some "C"⟩], [], [⟨1, 1, none, true⟩],
          [⟨"C", 1, .INTERMEDIATE, true⟩], [⟨7, some 1⟩], []⟩) 1).map
        (fun r => (r.1.assignments, r.2)) =
      (auto_assign_courses_for_employee
        ⟨[⟨1, "E1", "N", some "C"⟩], [], [⟨1, 1, none, true⟩],
          [⟨"C", 1, .INTERMEDIATE, true⟩], [⟨7, some 1⟩], []⟩ 1).map
        (fun r => (r.1.assignments, r.2)) :=
  C7_interested_never_participates.2.2
    ⟨[⟨1, "E1", "N", some "C"⟩], [], [⟨1, 1, none, true⟩],
      [⟨"C", 1, .INTERMEDIATE, true⟩], [⟨7, some 1⟩], []⟩ 1
    (by decide) (by decide)

theorem foldl_skip_filter {α : Type} (f : AutoState → α → AutoState) (p : α → Bool)
    (hskip : ∀ st x, p x = false → f st x = st) :
    ∀ (l : List α) (st : AutoState), l.foldl f st = (l.filter p).foldl f st := by
  intro l
  induction l with
  | nil => intro st; rfl
  | cons x xs ih =>
    intro st
    cases hp : p x with
    | false =>
      rw [List.foldl_cons, hskip st x hp, List.filter_cons, hp]
      rw [if_neg (show ¬(false = true) from by decide)]
      exact ih st
    | true =>
      rw [List.foldl_cons, List.filter_cons, hp, if_pos rfl, List.foldl_cons]
      exact ih (f st x)

theorem bulk_step_skip (db : DB) : ∀ (st : AutoState) (employee : EmployeeRow),
    (match employee.band with
      | none => false
      | some band => !band.isEmpty) = false →
    (match employee.band with
      | none => st
      | some band => if band.isEmpty then st
        else autoAssignLoops db employee.id band st) = st := by
  intro st employee h
  rcases hband : employee.band with _ | band
  · rfl
  · dsimp only
    cases hbe : band.isEmpty with
    | true => rfl
    | false =>
      rw [hband] at h
      dsimp only at h
      rw [hbe] at h
      exact absurd h (by decide)

/-- C8: the bulk auto-assignment silently skips every employee without a
(truthy) band — the run over all employees equals the run over only the
banded ones, so bandless employees contribute no assignments and no
counts — whereas per-employee auto-assignment on an employee with no band
is a hard 400 error that creates nothing. -/
theorem C8_bandless_employees :
    (∀ db : DB, auto_assign_courses_by_skill_gap db =
      ({ db with assignments := db.assignments ++
          ((db.employees.filter (fun (e : EmployeeRow) => match e.band with
              | none => false
              | some band => !band.isEmpty)).foldl
            (fun (st : AutoState) (employee : EmployeeRow) =>
              match employee.band with
              | none => st
              | some band => if band.isEmpty then st
                else autoAssignLoops db employee.id band st)
            ⟨[], 0, 0⟩).new_assignments },
        ((db.employees.filter (fun (e : EmployeeRow) => match e.band with
            | none => false
            | some band => !band.isEmpty)).foldl
          (fun (st : AutoState) (employee : EmployeeRow) =>
            match employee.band with
            | none => st
            | some band => if band.isEmpty then st
              else autoAssignLoops db employee.id band st)
          ⟨[], 0, 0⟩).assigned,
        ((db.employees.filter (fun (e : EmployeeRow) => match e.band with
            | none => false
            | some band => !band.isEmpty)).foldl
          (fun (st : AutoState) (employee : EmployeeRow) =>
            match employee.band with
            | none => st
            | some band => if band.isEmpty then st
              else autoAssignLoops db employee.id band st)
          ⟨[], 0, 0⟩).skipped)) ∧
    (∀ (db : DB) (eid : Nat) (emp : EmployeeRow),
      db.employees.find? (fun e => e.id == eid) = some emp → emp.band = none →
      auto_assign_courses_for_employee db eid =
        .error "Employee has no band assigned") := by
  constructor
  · intro db
    unfold auto_assign_courses_by_skill_gap
    rw [foldl_skip_filter _ _ (bulk_step_skip db) db.employees ⟨[], 0, 0⟩]
  · intro db eid emp hfind hband
    simp [auto_assign_courses_for_employee, hfind, hband]

/-- Witness for C8: per-employee auto-assignment on a concrete bandless
employee is the hard error. -/
theorem C8_witness :
    auto_assign_courses_for_employee ⟨[⟨1, "E1", "N", none⟩], [], [], [], [], []⟩ 1 =
      .error "Employee has no band assigned" :=
  C8_bandless_employees.2 ⟨[⟨1, "E1", "N", none⟩], [], [], [], [], []⟩ 1
    ⟨1, "E1", "N", none⟩ rfl rfl

/-- The authenticated user, as `start_course` reads it: only the linked
employee id matters. -/
structure UserRow where
  employee_id : Option String
deriving DecidableEq, Repr

/-- In-place mutation of the first row the ORM query returns: update the
first element satisfying the predicate, leave everything else as is. -/
def updateFirst (p : AssignmentRow → Bool) (f : AssignmentRow → AssignmentRow) :
    List AssignmentRow → List AssignmentRow
  | [] => []
  | a :: rest => if p a then f a :: rest else a :: updateFirst p f rest

/-- `start_course` of `learning.py` (PATCH /assignments/{id}/start): look
up the caller's employee, then the assignment by (id, employee); if its
status is NotStarted, set it to InProgress with `started_at = now` and
commit; otherwise change nothing.  Either way the endpoint replies
"Course started". -/
def start_course (db : DB) (assignment_id : Nat) (user : UserRow) (now : Nat) :
    Except String DB :=
  match user.employee_id with
  | none => .error "User is not linked to an employee"
  | some emp_str =>
    match db.employees.find? (fun e => e.employee_id == emp_str) with
    | none => .error "Employee not found"
    | some employee =>
      match db.assignments.find? (fun a =>
          a.id == assignment_id && a.employee_id == employee.id) with
      | none => .error "Assignment not found"
      | some assignment =>
        if assignment.status == CourseStatus.NOT_STARTED then
          let updated := updateFirst
            (fun a => a.id == assignment_id && a.employee_id == employee.id)
            (fun a => { a with status := .IN_PROGRESS, started_at := some now })
            db.assignments
          .ok { db with assignments := updated }
        else .ok db

theorem find?_updateFirst_split (p : AssignmentRow → Bool)
    (f : AssignmentRow → AssignmentRow) :
    ∀ (l : List AssignmentRow) (a : AssignmentRow), l.find? p = some a →
      ∃ pre post, l = pre ++ a :: post ∧ (∀ b ∈ pre, p b = false) ∧
        updateFirst p f l = pre ++ f a :: post := by
  intro l
  induction l with
  | nil => intro a h; cases h
  | cons x xs ih =>
    intro a h
    cases hp : p x with
    | true =>
      rw [List.find?_cons_of_pos _ hp] at h
      have hxa : x = a := Option.some.inj h
      subst hxa
      refine ⟨[], xs, rfl, (by intro b hb; exact absurd hb (List.not_mem_nil b)), ?_⟩
      simp only [updateFirst]
      rw [if_pos hp]
      rfl
    | false =>
      rw [List.find?_cons_of_neg _ (by rw [hp]; exact Bool.false_ne_true)] at h
      rcases ih a h with ⟨pre, post, hsplit, hpre, hupd⟩
      refine ⟨x :: pre, post, by rw [List.cons_append, ← hsplit], ?_, ?_⟩
      · intro b hb
        rcases List.mem_cons.mp hb with hb | hb
        · rw [hb]
          exact hp
        · exact hpre b hb
      · simp only [updateFirst]
        rw [if_neg (by rw [hp]; exact Bool.false_ne_true), hupd]
        rfl

/-- C10: invoking the start operation on an assignment whose status is not
NotStarted leaves the database — in particular that assignment's status
and started_at — unchanged; when the prior status is NotStarted, exactly
the first matching assignment row transitions to InProgress with
started_at set, and every other row is untouched. -/
theorem C10_start_course_frame (db : DB) (aid : Nat) (user : UserRow) (now : Nat)
    (emp_str : String) (employee : EmployeeRow) (assignment : AssignmentRow)
    (hu : user.employee_id = some emp_str)
    (he : db.employees.find? (fun e => e.employee_id == emp_str) = some employee)
    (ha : db.assignments.find? (fun a =>
      a.id == aid && a.employee_id == employee.id) = some assignment) :
    (assignment.status ≠ CourseStatus.NOT_STARTED →
      start_course db aid user now = .ok db) ∧
    (assignment.status = CourseStatus.NOT_STARTED →
      ∃ pre post, db.assignments = pre ++ assignment :: post ∧
        (∀ b ∈ pre, (b.id == aid && b.employee_id == employee.id) = false) ∧
        start_course db aid user now = .ok { db with assignments := pre ++
          { assignment with status := .IN_PROGRESS, started_at := some now } ::
            post }) := by
  constructor
  · intro hne
    simp only [start_course, hu, he, ha]
    rw [if_neg (by simpa using hne)]
  · intro heq
    rcases find?_updateFirst_split
        (fun a => a.id == aid && a.employee_id == employee.id)
        (fun a => { a with status := .IN_PROGRESS, started_at := some now })
        db.assignments assignment ha with ⟨pre, post, h1, h2, h3⟩
    refine ⟨pre, post, h1, h2, ?_⟩
    simp only [start_course, hu, he, ha]
    rw [if_pos (by rw [heq]; rfl), h3]

/-- Witness for C10: starting an already-completed concrete assignment
returns the database unchanged. -/
theorem C10_witness :
    start_course ⟨[⟨5, "E9", "N", none⟩], [], [], [], [],
        [⟨3, 5, 7, .COMPLETED, none⟩]⟩ 3 ⟨some "E9"⟩ 42 =
      .ok ⟨[⟨5, "E9", "N", none⟩], [], [], [], [],
        [⟨3, 5, 7, .COMPLETED, none⟩]⟩ :=
  (C10_start_course_frame ⟨[⟨5, "E9", "N", none⟩], [], [], [], [],
      [⟨3, 5, 7, .COMPLETED, none⟩]⟩ 3 ⟨some "E9"⟩ 42 "E9"
    ⟨5, "E9", "N", none⟩ ⟨3, 5, 7, .COMPLETED, none⟩ rfl rfl rfl).1 (by decide)

end Skillboard
